import Mathlib

/-!
# decklink-debugger: device probers, the display loop and shutdown

A shallow embedding of `DeviceProber.cpp`, `DeviceProber.h` and
`decklink-debugger.cpp`.  Objects reached through pointers are values that are
passed around explicitly; the reference counts of the `IDeckLink` handles (which
`_main` and the probers share) live in a `World` that every operation threads,
together with the shutdown flag `g_do_exit` and a trace of the observable actions.
`LOG(...)` lines are not modelled.
-/

namespace DecklinkDebugger

/-! ## Outcomes, trace, world -/

/-- Ways in which a call does not return to its caller. -/
inductive Stop where
  /-- the call `exit(code)` -/
  | exit (code : Nat)
  /-- a member call through a pointer that is `NULL` -/
  | nullDeref
  /-- an `assert` whose condition is false (the process aborts) -/
  | assertFailed
  /-- a C++ `throw` of a string literal, until it is caught -/
  | thrown (what : String)
  /-- a member call on an object after its `delete this` -/
  | useAfterDelete
  /-- the observed schedule ended while the display loop was still going -/
  | running
deriving DecidableEq, Repr

/-- The interfaces that the program asks an `IDeckLink` for. -/
inductive IID where
  | IID_IDeckLinkAttributes
  | IID_IDeckLinkInput
deriving DecidableEq, Repr

/-- One row that `printStatusList` streams into the table printer (the row ends
with `greyoff`). The conversions to text (`boolToString`,
`videoConnectionToString`, `pixelFormatToString`) belong to the printer side;
the row keeps the values they are applied to. -/
structure Row where
  deviceIndex : Nat
  deviceName : String
  canInputAndDetect : Bool
  signalDetected : Bool
  activeConnection : Nat
  detectedMode : String
  pixelFormat : Nat
deriving DecidableEq, Repr

/-- Observable actions, in the order in which the program performs them. Handles
and the objects built on them are named by the address of the handle. -/
inductive Event where
  | deckLinkAddRef (addr : Nat)
  | deckLinkRelease (addr : Nat)
  | queryInterface (addr : Nat) (iid : IID) (found : Bool)
  | attributesRelease (addr : Nat)
  | inputRelease (addr : Nat)
  | newCaptureDelegate (addr : Nat)
  | captureDelegateStart (addr : Nat)
  | captureDelegateStop (addr : Nat)
  | captureDelegateRelease (addr : Nat)
  | deleteDeviceProber (addr : Nat)
  | iteratorRelease
  | newHttpServer
  | httpServerRelease
  | signal (signum : Int)
  | cerr (text : String)
  | cout (text : String)
  | cursorUp (nLines : Int)
  | tableHeader
  | greyon
  | tableRow (row : Row)
  | tableFooter
  | scanning (sign : Char)
  | selectNextConnection (addr : Nat)
  | sleep (seconds : Nat)
deriving DecidableEq, Repr

/-- The state shared by everything in the process: the reference count of the
`IDeckLink` object at each address, the flag `g_do_exit`, and the trace so far. -/
structure World where
  refs : Nat → Int
  g_do_exit : Bool
  out : List Event

/-- A computation of the program: it runs in a world, changes it, and either
returns a value or stops. The world is kept when it stops. -/
structure Prog (α : Type) where
  run : World → Except Stop α × World

instance : Monad Prog where
  pure a := ⟨fun w => (Except.ok a, w)⟩
  bind x f := ⟨fun w =>
    match x.run w with
    | (Except.ok a, w1) => (f a).run w1
    | (Except.error s, w1) => (Except.error s, w1)⟩

/-- Stop with `s`. -/
def halt {α : Type} (s : Stop) : Prog α :=
  ⟨fun w => (Except.error s, w)⟩

/-- Append one action to the trace. -/
def emit (e : Event) : Prog Unit :=
  ⟨fun w => (Except.ok (), { w with out := w.out ++ [e] })⟩

/-- Add `delta` to the reference count of the `IDeckLink` at `addr`. -/
def adjust (addr : Nat) (delta : Int) : Prog Unit :=
  ⟨fun w => (Except.ok (),
    { w with refs := fun a => if a = addr then w.refs a + delta else w.refs a })⟩

/-- Read the reference count of the `IDeckLink` at `addr`. -/
def refCountAt (addr : Nat) : Prog Int :=
  ⟨fun w => (Except.ok (w.refs addr), w)⟩

/-- The check `assert(cond)`, in a build with assertions enabled: aborts the
process when `cond` is false. -/
def assert (cond : Bool) : Prog Unit :=
  if cond then pure () else halt Stop.assertFailed

/-- Value of an `int` or `int32_t` after storing `n` in it (two's complement, 32
bits). -/
def toInt32 (n : Int) : Int := (n + 2 ^ 31) % 2 ^ 32 - 2 ^ 31

/-- Value of a `ULONG` (unsigned, 32 bits) after storing `n` in it. -/
def toULONG (n : Int) : Int := n % 2 ^ 32

/-! ## External collaborators -/

/-- Modelled from the spec: the class `CaptureDelegate` (the signal monitor,
`CaptureDelegate.h`, not among the sources). It holds the live snapshot that its
background worker maintains (`signalDetected`, `detectedMode`, `pixelFormat`,
`lastFrame`, `subDevice`), the connection selector (the probed connector is
index `connection` among `connections` connectors, "state = currently probed
connector index i in [0, N)"), its own count of outstanding references, and the
number of references that it holds on its `IDeckLink`. -/
structure CaptureDelegate where
  refCount : Int
  running : Bool
  signalDetected : Bool
  detectedMode : String
  pixelFormat : Nat
  lastFrame : Option Nat
  subDevice : Bool
  connection : Nat
  connections : Nat
  deckLinkRefs : Nat
deriving DecidableEq, Repr

/-- Modelled from the spec: `CaptureDelegate::Start`, "started immediately on
creation". -/
def CaptureDelegate.Start (m : CaptureDelegate) : CaptureDelegate :=
  { m with running := true }

/-- Modelled from the spec: `CaptureDelegate::Stop`, the worker is no longer
running when the call returns. -/
def CaptureDelegate.Stop (m : CaptureDelegate) : CaptureDelegate :=
  { m with running := false }

/-- Modelled from the spec: `CaptureDelegate::SelectNextConnection`, "On a tick
where no signal is observed, transition i → (i+1) mod N". -/
def CaptureDelegate.SelectNextConnection (m : CaptureDelegate) : CaptureDelegate :=
  { m with connection := (m.connection + 1) % m.connections }

/-- Modelled from the spec: `CaptureDelegate::Release`, "release() → remaining
reference count". When no reference remains the monitor is destroyed and gives
back the references that it holds on the `IDeckLink` at `addr`. -/
def CaptureDelegate.Release (m : CaptureDelegate) (addr : Nat) : Prog Int := do
  emit (Event.captureDelegateRelease addr)
  let remaining := m.refCount - 1
  if remaining == 0 then
    adjust addr (-(m.deckLinkRefs : Int))
  pure remaining

/-- Answer of `IDeckLinkAttributes::GetFlag` for
`BMDDeckLinkSupportsInputFormatDetection`: the flag, or `none` when the result
is not `S_OK`. -/
structure IDeckLinkAttributes where
  supportsInputFormatDetection : Option Bool
deriving DecidableEq, Repr

/-- An `IDeckLink*` as the program sees it: the address of the object, and what
the object answers. `attributes` is the interface that
`QueryInterface(IID_IDeckLinkAttributes)` yields (`none`: result other than
`S_OK`), `input` tells whether `QueryInterface(IID_IDeckLinkInput)` yields
`S_OK`, `displayName` is the answer of `GetDisplayName` (`none`: failure), and
`capture` is the state in which `new CaptureDelegate(deckLink)` creates the
monitor. Interfaces obtained from `QueryInterface` are references on the object
itself. -/
structure IDeckLink where
  addr : Nat
  attributes : Option IDeckLinkAttributes
  input : Bool
  displayName : Option String
  capture : CaptureDelegate
deriving DecidableEq, Repr

/-- The call `deckLink->AddRef()`. -/
def IDeckLink.AddRef (d : IDeckLink) : Prog Unit := do
  emit (Event.deckLinkAddRef d.addr)
  adjust d.addr 1

/-- The call `deckLink->Release()`; returns the new reference count. -/
def IDeckLink.Release (d : IDeckLink) : Prog Int := do
  emit (Event.deckLinkRelease d.addr)
  adjust d.addr (-1)
  refCountAt d.addr

/-- Whether the object at the handle implements the interface `iid`. -/
def IDeckLink.implements (d : IDeckLink) : IID → Bool
  | IID.IID_IDeckLinkAttributes => d.attributes.isSome
  | IID.IID_IDeckLinkInput => d.input

/-- The call `deckLink->QueryInterface(iid, &p)`: returns whether the result is
`S_OK`; then `p` is the interface, one more reference on the object, and
otherwise `p` is `NULL`. -/
def IDeckLink.QueryInterface (d : IDeckLink) (iid : IID) : Prog Bool := do
  emit (Event.queryInterface d.addr iid (d.implements iid))
  if d.implements iid then
    adjust d.addr 1
  pure (d.implements iid)

/-! ## DeviceProber -/

/-- The class `DeviceProber`. The member `m_refCount` is used by `AddRef` and
`Release` but declared in no source file at hand; it is taken to be of the type
`int32_t` into which `Release` reads it, and holds a value of that range. The
monitor `m_captureDelegate` is owned by the prober alone, so its state is kept
inline (`none` is the null pointer). -/
structure DeviceProber where
  m_refCount : Int
  m_deckLink : IDeckLink
  m_captureDelegate : Option CaptureDelegate
  m_deckLinkAttributes : IDeckLinkAttributes
  m_canAutodetect : Bool
  m_canInput : Bool
deriving DecidableEq, Repr

/-- Member `DeviceProber::queryAttributesInterface`. -/
def DeviceProber.queryAttributesInterface (deckLink : IDeckLink) : Prog IDeckLinkAttributes := do
  let _ ← deckLink.QueryInterface IID.IID_IDeckLinkAttributes
  match deckLink.attributes with
  | some deckLinkAttributes => pure deckLinkAttributes
  | none => do
    emit (Event.cerr "Could not obtain the IID_IDeckLinkAttributes interface")
    halt (Stop.exit 1)

/-- Member `DeviceProber::queryCanInput`: the interface pointer is released
whether or not the query gave one. -/
def DeviceProber.queryCanInput (deckLink : IDeckLink) : Prog Bool := do
  let deckLinkInput ← deckLink.QueryInterface IID.IID_IDeckLinkInput
  let canInput := deckLinkInput
  if deckLinkInput then do
    emit (Event.inputRelease deckLink.addr)
    adjust deckLink.addr (-1)
  else
    halt Stop.nullDeref
  pure canInput

/-- Member `DeviceProber::queryCanAutodetect`. -/
def DeviceProber.queryCanAutodetect (deckLinkAttributes : IDeckLinkAttributes) : Prog Bool :=
  match deckLinkAttributes.supportsInputFormatDetection with
  | some formatDetectionSupported => pure formatDetectionSupported
  | none => do
    emit (Event.cerr "Failed to Query Auto-Detection-Flag")
    halt (Stop.exit 1)

/-- The constructor `DeviceProber::DeviceProber(IDeckLink*)`. -/
def DeviceProber.ctor (deckLink : IDeckLink) : Prog DeviceProber := do
  deckLink.AddRef
  let deckLinkAttributes ← DeviceProber.queryAttributesInterface deckLink
  let canInput ← DeviceProber.queryCanInput deckLink
  let canAutodetect ← DeviceProber.queryCanAutodetect deckLinkAttributes
  if canAutodetect && canInput then do
    emit (Event.newCaptureDelegate deckLink.addr)
    adjust deckLink.addr deckLink.capture.deckLinkRefs
    emit (Event.captureDelegateStart deckLink.addr)
    pure { m_refCount := 1, m_deckLink := deckLink,
           m_captureDelegate := some deckLink.capture.Start,
           m_deckLinkAttributes := deckLinkAttributes,
           m_canAutodetect := canAutodetect, m_canInput := canInput }
  else
    pure { m_refCount := 1, m_deckLink := deckLink,
           m_captureDelegate := none,
           m_deckLinkAttributes := deckLinkAttributes,
           m_canAutodetect := canAutodetect, m_canInput := canInput }

/-- Member `DeviceProber::CanAutodetect`. -/
def DeviceProber.CanAutodetect (p : DeviceProber) : Bool := p.m_canAutodetect

/-- Member `DeviceProber::CanInput`. -/
def DeviceProber.CanInput (p : DeviceProber) : Bool := p.m_canInput

/-- Member `DeviceProber::GetIDecklink`. -/
def DeviceProber.GetIDecklink (p : DeviceProber) : IDeckLink := p.m_deckLink

/-- Member `DeviceProber::GetSignalDetected`. -/
def DeviceProber.GetSignalDetected (p : DeviceProber) : Bool :=
  match p.m_captureDelegate with
  | some m => m.signalDetected
  | none => false

/-- Member `DeviceProber::IsSubDevice`. -/
def DeviceProber.IsSubDevice (p : DeviceProber) : Bool :=
  match p.m_captureDelegate with
  | some m => m.subDevice
  | none => false

/-- Member `DeviceProber::GetDetectedMode`. -/
def DeviceProber.GetDetectedMode (p : DeviceProber) : String :=
  match p.m_captureDelegate with
  | some m => if m.signalDetected then m.detectedMode else ""
  | none => ""

/-- Member `DeviceProber::GetPixelFormat`. -/
def DeviceProber.GetPixelFormat (p : DeviceProber) : Nat :=
  match p.m_captureDelegate with
  | some m => if m.signalDetected then m.pixelFormat else 0
  | none => 0

/-- Member `DeviceProber::GetLastFrame` (`none` is `NULL`). -/
def DeviceProber.GetLastFrame (p : DeviceProber) : Option Nat :=
  match p.m_captureDelegate with
  | some m => m.lastFrame
  | none => none

/-- Member `DeviceProber::GetActiveConnection`. -/
def DeviceProber.GetActiveConnection (p : DeviceProber) : Nat :=
  match p.m_captureDelegate with
  | some m => m.connection
  | none => 0

/-- Member `DeviceProber::SelectNextConnection`. -/
def DeviceProber.SelectNextConnection (p : DeviceProber) : DeviceProber :=
  match p.m_captureDelegate with
  | some m => { p with m_captureDelegate := some m.SelectNextConnection }
  | none => p

/-- Member `DeviceProber::AddRef`: the returned `ULONG`, and the object. The
builtin `__sync_add_and_fetch` wraps around. -/
def DeviceProber.AddRef (p : DeviceProber) : Int × DeviceProber :=
  (toULONG (toInt32 (p.m_refCount + 1)), { p with m_refCount := toInt32 (p.m_refCount + 1) })

/-- Member `DeviceProber::Release`: the returned `ULONG`, and the object if it
still exists (`none` after `delete this`). The builtin `__sync_sub_and_fetch`
wraps around, and its result is read into the `int32_t newRefValue`. -/
def DeviceProber.Release (p : DeviceProber) : Prog (Int × Option DeviceProber) := do
  let newRefValue := toInt32 (p.m_refCount - 1)
  if newRefValue == 0 then do
    let _ ← p.m_deckLink.Release
    emit (Event.attributesRelease p.m_deckLink.addr)
    adjust p.m_deckLink.addr (-1)
    match p.m_captureDelegate with
    | some m => do
      emit (Event.captureDelegateStop p.m_deckLink.addr)
      let remaining ← m.Stop.Release p.m_deckLink.addr
      assert (remaining == 0)
    | none => pure ()
    emit (Event.deleteDeviceProber p.m_deckLink.addr)
    pure (0, none)
  else
    pure (toULONG newRefValue, some { p with m_refCount := newRefValue })

/-- Member `DeviceProber::GetDeviceName`. -/
def DeviceProber.GetDeviceName (p : DeviceProber) : Prog String :=
  match p.m_deckLink.displayName with
  | some deviceNameString => pure deviceNameString
  | none => do
    emit (Event.cerr "Failed to get the Name for the DeckLink Device")
    halt (Stop.exit 1)

/-! ## The program -/

/-- The object that `CreateDeckLinkIteratorInstance()` returns: the handles that
successive calls of `Next` yield, and its count of outstanding references. -/
structure IDeckLinkIterator where
  devices : List IDeckLink
  refCount : Int
deriving DecidableEq, Repr

/-- Modelled from the spec: the class `HttpServer` (`HttpServer.h`, not among
the sources), "constructed once with the full DeviceProber collection, holding
its own reference for its independent lifetime". Only its count of outstanding
references matters to the program. -/
structure HttpServer where
  refCount : Int
deriving DecidableEq, Repr

/-- Modelled from the spec: `HttpServer::Release`, returning the remaining
count. -/
def HttpServer.Release (h : HttpServer) : Prog Int := do
  emit Event.httpServerRelease
  pure (h.refCount - 1)

/-- Modelled from the spec: what the background worker of a `CaptureDelegate`
reports, "signal-detected, mode, format ... a synchronous snapshot read from
the external monitor". -/
structure Observation where
  signalDetected : Bool
  detectedMode : String
  pixelFormat : Nat
deriving DecidableEq, Repr

/-- Modelled from the spec: the worker of a monitor replaces the snapshot; the
probed connector is "advanced by an explicit command, never by a timer internal
to the monitor". -/
def CaptureDelegate.observe (m : CaptureDelegate) (o : Observation) : CaptureDelegate :=
  { m with signalDetected := o.signalDetected, detectedMode := o.detectedMode,
           pixelFormat := o.pixelFormat }

/-- What happens asynchronously during one iteration of the display loop: the
monitors (in registry order, `none` for no change) take a new snapshot before
the table is printed, and the signals in `signals` reach `sigfunc` before the
next check of `g_do_exit`. -/
structure Tick where
  monitors : List (Option Observation)
  signals : List Int
deriving DecidableEq, Repr

/-- Everything outside the program that a run depends on: the iterator that
`CreateDeckLinkIteratorInstance()` returns (`none` is `NULL`), the `HttpServer`
object as its scope guard finds it, the signals that reach `sigfunc` between its
registration and the first check of `g_do_exit`, and the iterations observed. -/
structure Env where
  iterator : Option IDeckLinkIterator
  httpServer : HttpServer
  early : List Int
  ticks : List Tick
deriving DecidableEq, Repr

/-- Signal number of `SIGHUP` (`<signal.h>`). -/
def SIGHUP : Int := 1

/-- Signal number of `SIGINT` (`<signal.h>`). -/
def SIGINT : Int := 2

/-- Signal number of `SIGTERM` (`<signal.h>`). -/
def SIGTERM : Int := 15

/-- The store `g_do_exit = true`. -/
def set_g_do_exit : Prog Unit :=
  ⟨fun w => (Except.ok (), { w with g_do_exit := true })⟩

/-- The load `g_do_exit.load(std::memory_order_acquire)`. -/
def load_g_do_exit : Prog Bool :=
  ⟨fun w => (Except.ok w.g_do_exit, w)⟩

/-- The handler `sigfunc`. -/
def sigfunc (signum : Int) : Prog Unit :=
  if signum == SIGINT || signum == SIGTERM then
    set_g_do_exit
  else
    pure ()

/-- Delivery of signals to the handler `sigfunc`, one after the other. -/
def deliver : List Int → Prog Unit
  | [] => pure ()
  | signum :: rest => do
    sigfunc signum
    deliver rest

/-- The function `collectDeckLinkDevices`. -/
def collectDeckLinkDevices (env : Env) : Prog (List IDeckLink) :=
  match env.iterator with
  | none =>
    halt (Stop.thrown
      "A DeckLink iterator could not be created. The DeckLink drivers may not be installed.")
  | some deckLinkIterator => do
    let deckLinkDevices := deckLinkIterator.devices
    emit Event.iteratorRelease
    assert (deckLinkIterator.refCount - 1 == 0)
    pure deckLinkDevices

/-- The function `freeDeckLinkDevices`. -/
def freeDeckLinkDevices : List IDeckLink → Prog Unit
  | [] => pure ()
  | deckLink :: rest => do
    let remaining ← deckLink.Release
    assert (remaining == 0)
    freeDeckLinkDevices rest

/-- The function `createDeviceProbers`. -/
def createDeviceProbers : List IDeckLink → Prog (List DeviceProber)
  | [] => pure []
  | deckLink :: rest => do
    let deviceProber ← DeviceProber.ctor deckLink
    let deviceProbers ← createDeviceProbers rest
    pure (deviceProber :: deviceProbers)

/-- The function `freeDeviceProbers`. -/
def freeDeviceProbers : List DeviceProber → Prog Unit
  | [] => pure ()
  | deviceProber :: rest => do
    let released ← deviceProber.Release
    assert (released.1 == 0)
    freeDeviceProbers rest

/-- The array `iterationSign` of `printStatusList`, indexed by `iteration % 4`. -/
def iterationSign (i : Nat) : Char :=
  match i % 4 with
  | 0 => '|'
  | 1 => '\\'
  | 2 => '-'
  | _ => '/'

/-- The rows of `printStatusList`: its loop over the probers, `deviceIndex`
counting from the given value. -/
def printRows : List DeviceProber → Nat → Prog Unit
  | [], _ => pure ()
  | deviceProber :: rest, deviceIndex => do
    if !deviceProber.GetSignalDetected then
      emit Event.greyon
    let deviceName ← deviceProber.GetDeviceName
    let deviceName := if deviceProber.IsSubDevice then "\\-> " ++ deviceName else deviceName
    emit (Event.tableRow
      { deviceIndex := deviceIndex
        deviceName := deviceName
        canInputAndDetect := deviceProber.CanAutodetect && deviceProber.CanInput
        signalDetected := deviceProber.GetSignalDetected
        activeConnection := deviceProber.GetActiveConnection
        detectedMode := deviceProber.GetDetectedMode
        pixelFormat := deviceProber.GetPixelFormat })
    printRows rest (deviceIndex + 1)

/-- The function `printStatusList`. -/
def printStatusList (deviceProbers : List DeviceProber) (iteration : Nat) : Prog Unit := do
  if iteration > 0 then
    emit (Event.cursorUp (toInt32 (deviceProbers.length + 6)))
  emit Event.tableHeader
  printRows deviceProbers 0
  emit Event.tableFooter
  emit (Event.scanning (iterationSign iteration))

/-- The inner loop of `_main`: `SelectNextConnection` on every prober that
reports no signal, in registry order. `Event.selectNextConnection` marks each
call. -/
def selectConnections : List DeviceProber → Prog (List DeviceProber)
  | [] => pure []
  | deviceProber :: rest => do
    let deviceProber ←
      if !deviceProber.GetSignalDetected then do
        emit (Event.selectNextConnection deviceProber.m_deckLink.addr)
        pure deviceProber.SelectNextConnection
      else
        pure deviceProber
    let rest ← selectConnections rest
    pure (deviceProber :: rest)

/-- The monitors of the probers take the snapshots of one tick. -/
def observeAll : List (Option Observation) → List DeviceProber → List DeviceProber
  | _, [] => []
  | [], deviceProbers => deviceProbers
  | o :: os, deviceProber :: rest =>
    (match o, deviceProber.m_captureDelegate with
      | some o, some m => { deviceProber with m_captureDelegate := some (m.observe o) }
      | _, _ => deviceProber) :: observeAll os rest

/-- The body of the `while` loop of `_main`: one iteration. -/
def displayLoopBody (t : Tick) (deviceProbers : List DeviceProber) (iteration : Nat) :
    Prog (List DeviceProber) := do
  let deviceProbers := observeAll t.monitors deviceProbers
  printStatusList deviceProbers iteration
  let deviceProbers ← selectConnections deviceProbers
  emit (Event.sleep 1)
  deliver t.signals
  pure deviceProbers

/-- The `while` loop of `_main`, over the observed iterations; `iteration` is
an `unsigned int`. Returns the probers in their state at loop exit. -/
def displayLoop : List Tick → List DeviceProber → Nat → Prog (List DeviceProber)
  | [], deviceProbers, _ => do
    if (← load_g_do_exit) then
      pure deviceProbers
    else
      halt Stop.running
  | t :: ticks, deviceProbers, iteration => do
    if (← load_g_do_exit) then
      pure deviceProbers
    else do
      let deviceProbers ← displayLoopBody t deviceProbers iteration
      displayLoop ticks deviceProbers ((iteration + 1) % 2 ^ 32)

/-- The function `_main`. A scope guard runs its callback when the scope is left
by `return` or by an exception, the guards of a scope in reverse order of
creation; `exit`, a null dereference and a failed `assert` end the process
without unwinding. The only exception raised inside a guarded scope is "No
DeckLink devices found", at which point only `deckLinkDevicesGuard` exists. -/
def _main (env : Env) : Prog Unit := do
  let deckLinkDevices ← collectDeckLinkDevices env
  if deckLinkDevices.length == 0 then do
    freeDeckLinkDevices deckLinkDevices
    halt (Stop.thrown "No DeckLink devices found")
  else do
    let deviceProbers ← createDeviceProbers deckLinkDevices
    emit Event.newHttpServer
    let httpServer := env.httpServer
    emit (Event.signal SIGINT)
    emit (Event.signal SIGTERM)
    emit (Event.signal SIGHUP)
    deliver env.early
    let deviceProbers ← displayLoop env.ticks deviceProbers 0
    emit (Event.cout "Bye.")
    let remaining ← httpServer.Release
    assert (remaining == 0)
    freeDeviceProbers deviceProbers
    freeDeckLinkDevices deckLinkDevices

/-- The function `main`: the exit code. -/
def main (env : Env) : Prog Nat :=
  ⟨fun w =>
    match (_main env).run w with
    | (Except.ok (), w1) => (Except.ok 0, w1)
    | (Except.error (Stop.thrown e), w1) =>
      (Except.ok 1, { w1 with out := w1.out ++ [Event.cerr ("exception cought: " ++ e)] })
    | (Except.error s, w1) => (Except.error s, w1)⟩

/-- The world in which a process starts: nothing written yet, `g_do_exit` false,
and the reference counts `refs` of the objects that the SDK will hand out. -/
def World.start (refs : Nat → Int) : World :=
  { refs := refs, g_do_exit := false, out := [] }

/-! ## Sequences of calls on one prober -/

/-- A call of the reference-counting pair. -/
inductive RefCall where
  | AddRef
  | Release
deriving DecidableEq, Repr

/-- What one call of a sequence did: the value it returned, and whether it ran
the teardown (`delete this`). -/
structure RefReturn where
  value : Int
  tornDown : Bool
deriving DecidableEq, Repr

/-- A sequence of `AddRef` and `Release` calls on one prober, stopping at the
first call that finds the object deleted. Returns what each call did and the
object at the end. -/
def refCalls : List RefCall → DeviceProber → Prog (List RefReturn × Option DeviceProber)
  | [], p => pure ([], some p)
  | RefCall.AddRef :: rest, p => do
    let r := p.AddRef
    let done ← refCalls rest r.2
    pure ({ value := r.1, tornDown := false } :: done.1, done.2)
  | RefCall.Release :: rest, p => do
    let r ← p.Release
    match r.2 with
    | some q => do
      let done ← refCalls rest q
      pure ({ value := r.1, tornDown := false } :: done.1, done.2)
    | none =>
      match rest with
      | [] => pure ([{ value := r.1, tornDown := true }], none)
      | _ :: _ => halt Stop.useAfterDelete

/-- Net effect of a sequence of calls on the count: `AddRef`s minus `Release`s. -/
def net : List RefCall → Int
  | [] => 0
  | RefCall.AddRef :: rest => 1 + net rest
  | RefCall.Release :: rest => -1 + net rest

/-- The public members of `DeviceProber`, as calls. -/
inductive Call where
  | GetDeviceName
  | CanAutodetect
  | CanInput
  | GetIDecklink
  | GetSignalDetected
  | IsSubDevice
  | GetDetectedMode
  | GetPixelFormat
  | GetActiveConnection
  | SelectNextConnection
  | GetLastFrame
  | AddRef
  | Release
deriving DecidableEq, Repr

/-- One call on a prober; the result is the object after the call (`none` once it
is deleted), the returned value is dropped. The reading members assign no
member. -/
def DeviceProber.call (p : DeviceProber) : Call → Prog (Option DeviceProber)
  | Call.GetDeviceName => do
    let _ ← p.GetDeviceName
    pure (some p)
  | Call.CanAutodetect =>
    let _ := p.CanAutodetect
    pure (some p)
  | Call.CanInput =>
    let _ := p.CanInput
    pure (some p)
  | Call.GetIDecklink =>
    let _ := p.GetIDecklink
    pure (some p)
  | Call.GetSignalDetected =>
    let _ := p.GetSignalDetected
    pure (some p)
  | Call.IsSubDevice =>
    let _ := p.IsSubDevice
    pure (some p)
  | Call.GetDetectedMode =>
    let _ := p.GetDetectedMode
    pure (some p)
  | Call.GetPixelFormat =>
    let _ := p.GetPixelFormat
    pure (some p)
  | Call.GetActiveConnection =>
    let _ := p.GetActiveConnection
    pure (some p)
  | Call.SelectNextConnection => pure (some p.SelectNextConnection)
  | Call.GetLastFrame =>
    let _ := p.GetLastFrame
    pure (some p)
  | Call.AddRef => pure (some p.AddRef.2)
  | Call.Release => do
    let r ← p.Release
    pure r.2

/-- A sequence of calls on one prober; a call after `delete this` stops. -/
def calls : List Call → DeviceProber → Prog (Option DeviceProber)
  | [], p => pure (some p)
  | c :: rest, p => do
    let after ← p.call c
    match after with
    | some q => calls rest q
    | none =>
      match rest with
      | [] => pure none
      | _ :: _ => halt Stop.useAfterDelete

/-- The trace of the teardown of `p` when the monitor's `Release` returns 0. -/
def teardownTrace (p : DeviceProber) : List Event :=
  [Event.deckLinkRelease p.m_deckLink.addr, Event.attributesRelease p.m_deckLink.addr] ++
    (match p.m_captureDelegate with
      | some _ => [Event.captureDelegateStop p.m_deckLink.addr,
                   Event.captureDelegateRelease p.m_deckLink.addr]
      | none => []) ++
    [Event.deleteDeviceProber p.m_deckLink.addr]

/-- The trace of a construction of `p` that completes. -/
def ctorTrace (p : DeviceProber) : List Event :=
  [Event.deckLinkAddRef p.m_deckLink.addr,
   Event.queryInterface p.m_deckLink.addr IID.IID_IDeckLinkAttributes true,
   Event.queryInterface p.m_deckLink.addr IID.IID_IDeckLinkInput true,
   Event.inputRelease p.m_deckLink.addr] ++
    (match p.m_captureDelegate with
      | some _ => [Event.newCaptureDelegate p.m_deckLink.addr,
                   Event.captureDelegateStart p.m_deckLink.addr]
      | none => [])

/-- The references on its handle that a prober holds between construction and
teardown: its own, the attributes interface, and those of its monitor. -/
def DeviceProber.held (p : DeviceProber) : Int :=
  2 + (match p.m_captureDelegate with
    | some m => (m.deckLinkRefs : Int)
    | none => 0)

/-- The references that the probers of a list hold on the handle at `a`. -/
def heldAt (a : Nat) : List DeviceProber → Int
  | [] => 0
  | p :: rest => (if p.m_deckLink.addr = a then p.held else 0) + heldAt a rest

/-- The part of a prober that reference counting and teardown depend on: its
count, its handle, and the count and handle references of its monitor. -/
def DeviceProber.lifetime (p : DeviceProber) : Int × IDeckLink × Option (Int × Nat) :=
  (p.m_refCount, p.m_deckLink, p.m_captureDelegate.map fun m => (m.refCount, m.deckLinkRefs))

/-- World `w1` comes from `w` by output alone: the counts and the flag are the
same, and the trace has grown by events none of which marks a call of
`SelectNextConnection` or is a `sleep`. -/
def Printed (w w1 : World) : Prop :=
  w1.refs = w.refs ∧ w1.g_do_exit = w.g_do_exit ∧
    ∃ printed, w1.out = w.out ++ printed ∧
      (∀ a, Event.selectNextConnection a ∉ printed) ∧ ∀ n, Event.sleep n ∉ printed

/-- Whether an event is one that an iteration of the display loop adds to the
trace when it prints the table in full: the output of the table, the marks of
the calls of `SelectNextConnection`, and the `sleep`. -/
def Event.ofDisplayLoop : Event → Bool
  | Event.cursorUp _ => true
  | Event.tableHeader => true
  | Event.greyon => true
  | Event.tableRow _ => true
  | Event.tableFooter => true
  | Event.scanning _ => true
  | Event.selectNextConnection _ => true
  | Event.sleep _ => true
  | _ => false

/-- World `w1` comes from `w` by events of the display loop alone. -/
def Shown (w w1 : World) : Prop :=
  ∃ evs, w1.out = w.out ++ evs ∧ ∀ e ∈ evs, e.ofDisplayLoop = true

/-- Prober `q` is the prober `p` of the construction as the cleanup finds it:
on the same handle, with count 1, with a monitor exactly if `p` has one, that
monitor having one outstanding reference and holding on the handle the
references that a monitor takes at its creation. -/
def AtExit (p q : DeviceProber) : Prop :=
  q.m_deckLink = p.m_deckLink ∧ q.m_refCount = 1 ∧
    q.m_captureDelegate.isSome = p.m_captureDelegate.isSome ∧
    ∀ m, q.m_captureDelegate = some m →
      m.refCount = 1 ∧ m.deckLinkRefs = p.m_deckLink.capture.deckLinkRefs

/-! ## Concrete inputs -/

/-- A monitor as it is created: one outstanding reference, three connectors,
two references held on its handle. -/
def idleMonitor : CaptureDelegate :=
  { refCount := 1, running := false, signalDetected := false, detectedMode := "",
    pixelFormat := 0, lastFrame := none, subDevice := false, connection := 0,
    connections := 3, deckLinkRefs := 2 }

/-- A monitor that reports a signal on its second connector. -/
def lockedMonitor : CaptureDelegate :=
  { idleMonitor with running := true, signalDetected := true, detectedMode := "1080i59.94",
                     pixelFormat := 7, connection := 1 }

/-- A capture card at address 7 that supports input and format detection. -/
def captureCard : IDeckLink :=
  { addr := 7, attributes := some { supportsInputFormatDetection := some true },
    input := true, displayName := some "DeckLink Mini Recorder", capture := idleMonitor }

/-- A playback card at address 9: its attributes and its flag can be read, the
query for the input interface fails. -/
def playbackCard : IDeckLink :=
  { addr := 9, attributes := some { supportsInputFormatDetection := some false },
    input := false, displayName := some "DeckLink Mini Monitor", capture := idleMonitor }

/-- A card at address 8 with an input but without format detection. -/
def legacyCard : IDeckLink :=
  { addr := 8, attributes := some { supportsInputFormatDetection := some false },
    input := true, displayName := some "DeckLink SDI", capture := idleMonitor }

/-- The prober that the constructor builds on `captureCard`. -/
def captureProber : DeviceProber :=
  { m_refCount := 1, m_deckLink := captureCard, m_captureDelegate := some idleMonitor.Start,
    m_deckLinkAttributes := { supportsInputFormatDetection := some true },
    m_canAutodetect := true, m_canInput := true }

/-- The prober that the constructor builds on `legacyCard`: no monitor. -/
def legacyProber : DeviceProber :=
  { m_refCount := 1, m_deckLink := legacyCard, m_captureDelegate := none,
    m_deckLinkAttributes := { supportsInputFormatDetection := some false },
    m_canAutodetect := false, m_canInput := true }

/-- A prober on `captureCard` whose monitor reports a signal. -/
def lockedProber : DeviceProber :=
  { captureProber with m_captureDelegate := some lockedMonitor }

/-- A process start in which every handle has the one reference of its owner. -/
def freshWorld : World := World.start (fun _ => 1)

/-- A machine with the driver installed and no card: the iterator yields no
handle. -/
def emptyRig : Env :=
  { iterator := some { devices := [], refCount := 1 }, httpServer := { refCount := 1 },
    early := [], ticks := [] }

/-- A rig with `captureCard` and `legacyCard`, observed for four iterations:
the capture card finds a signal in the second, during which SIGHUP arrives;
SIGTERM arrives in the third. -/
def studioRig : Env :=
  { iterator := some { devices := [captureCard, legacyCard], refCount := 1 }
    httpServer := { refCount := 1 }
    early := []
    ticks :=
      [{ monitors := [], signals := [] },
       { monitors := [some { signalDetected := true, detectedMode := "1080i59.94",
                             pixelFormat := 7 }],
         signals := [SIGHUP] },
       { monitors := [], signals := [SIGTERM] },
       { monitors := [], signals := [] }] }

/-- The same rig observed for two iterations, SIGHUP arriving in the first. -/
def hangupRig : Env :=
  { studioRig with
    ticks := [{ monitors := [], signals := [SIGHUP] }, { monitors := [], signals := [] }] }

/-- The same rig again, with SIGTERM in place of SIGHUP. -/
def terminateRig : Env :=
  { studioRig with
    ticks := [{ monitors := [], signals := [SIGTERM] }, { monitors := [], signals := [] }] }

/-- A prober on `captureCard` whose monitor has a second outstanding reference
(such as one held by a frame callback in flight). -/
def busyProber : DeviceProber :=
  { captureProber with m_captureDelegate := some { lockedMonitor with refCount := 2 } }

@[simp] theorem run_pure {α : Type} (a : α) (w : World) :
    (pure a : Prog α).run w = (Except.ok a, w) := rfl

@[simp] theorem run_bind {α β : Type} (x : Prog α) (f : α → Prog β) (w : World) :
    (x >>= f).run w =
      match x.run w with
      | (Except.ok a, w1) => (f a).run w1
      | (Except.error s, w1) => (Except.error s, w1) := rfl

@[simp] theorem run_halt {α : Type} (s : Stop) (w : World) :
    (halt s : Prog α).run w = (Except.error s, w) := rfl

@[simp] theorem run_emit (e : Event) (w : World) :
    (emit e).run w = (Except.ok (), { w with out := w.out ++ [e] }) := rfl

@[simp] theorem run_adjust (addr : Nat) (delta : Int) (w : World) :
    (adjust addr delta).run w = (Except.ok (),
      { w with refs := fun a => if a = addr then w.refs a + delta else w.refs a }) := rfl

@[simp] theorem run_refCountAt (addr : Nat) (w : World) :
    (refCountAt addr).run w = (Except.ok (w.refs addr), w) := rfl

/-! ## Machine integers -/

theorem toInt32_zero : toInt32 0 = 0 := by decide

/-- Storing a value of its range in an `int32_t` keeps it. -/
theorem toInt32_of_range (n : Int) (h1 : -2 ^ 31 ≤ n) (h2 : n < 2 ^ 31) : toInt32 n = n := by
  unfold toInt32
  norm_num at h1 h2 ⊢
  omega

/-- Storing a value of its range in a `ULONG` keeps it. -/
theorem toULONG_of_range (n : Int) (h1 : 0 ≤ n) (h2 : n < 2 ^ 32) : toULONG n = n := by
  unfold toULONG
  norm_num at h2 ⊢
  omega

/-- Wrapping in between does not change a wrapped sum. -/
theorem toInt32_add (a b : Int) : toInt32 (toInt32 a + b) = toInt32 (a + b) := by
  unfold toInt32
  norm_num
  omega

/-! ## Teardown order (C1) -/

/-- C1 as stated fails: on `captureProber`, whose count `Release` brings to 0, the
teardown releases the hardware handle first, before the monitor is stopped, and
not in the order attributes, monitor, handle, object. -/
theorem release_order_counterexample :
    (captureProber.Release.run freshWorld).2.out =
        [Event.deckLinkRelease 7, Event.attributesRelease 7, Event.captureDelegateStop 7,
         Event.captureDelegateRelease 7, Event.deleteDeviceProber 7] ∧
      (captureProber.Release.run freshWorld).2.out ≠
        [Event.attributesRelease 7, Event.captureDelegateStop 7,
         Event.captureDelegateRelease 7, Event.deckLinkRelease 7,
         Event.deleteDeviceProber 7] := by
  decide

/-- C1, amended: when `Release` brings the count of a prober to 0, the teardown
takes its steps in this order: release the prober's reference on the hardware
handle, release the capability attributes, stop and release the signal monitor
(if present), and, the monitor's `Release` having returned 0, free the object. -/
theorem release_teardown_order (p : DeviceProber) (w : World) (h : p.m_refCount = 1) :
    (p.Release.run w).2.out =
      w.out ++ ([Event.deckLinkRelease p.m_deckLink.addr,
                 Event.attributesRelease p.m_deckLink.addr] ++
        match p.m_captureDelegate with
        | some m =>
          [Event.captureDelegateStop p.m_deckLink.addr,
           Event.captureDelegateRelease p.m_deckLink.addr] ++
            (if m.refCount = 1 then [Event.deleteDeviceProber p.m_deckLink.addr] else [])
        | none => [Event.deleteDeviceProber p.m_deckLink.addr]) := by
  cases hm : p.m_captureDelegate with
  | none =>
    simp [DeviceProber.Release, IDeckLink.Release, h, hm, toInt32_zero]
  | some m =>
    by_cases hq : m.refCount = 1
    · simp [DeviceProber.Release, IDeckLink.Release, CaptureDelegate.Release,
        CaptureDelegate.Stop, assert, h, hm, hq, toInt32_zero]
    · simp [DeviceProber.Release, IDeckLink.Release, CaptureDelegate.Release,
        CaptureDelegate.Stop, assert, h, hm, hq, sub_eq_zero, toInt32_zero]

/-- The amended C1 at `captureProber`. -/
theorem release_teardown_order_witness :
    (captureProber.Release.run freshWorld).2.out =
      freshWorld.out ++ ([Event.deckLinkRelease captureProber.m_deckLink.addr,
                 Event.attributesRelease captureProber.m_deckLink.addr] ++
        match captureProber.m_captureDelegate with
        | some m =>
          [Event.captureDelegateStop captureProber.m_deckLink.addr,
           Event.captureDelegateRelease captureProber.m_deckLink.addr] ++
            (if m.refCount = 1 then [Event.deleteDeviceProber captureProber.m_deckLink.addr]
             else [])
        | none => [Event.deleteDeviceProber captureProber.m_deckLink.addr]) :=
  release_teardown_order captureProber freshWorld (by decide)

/-! ## Construction on a handle without input interface (C3) -/

/-- C3 fails on the code: on `playbackCard`, whose attribute and flag queries
succeed and whose input query fails, the constructor does not complete; after
the failed query it calls `Release` through the null interface pointer. -/
theorem ctor_without_input_stops :
    ((DeviceProber.ctor playbackCard).run freshWorld).1 = Except.error Stop.nullDeref ∧
      ((DeviceProber.ctor playbackCard).run freshWorld).2.out =
        [Event.deckLinkAddRef 9,
         Event.queryInterface 9 IID.IID_IDeckLinkAttributes true,
         Event.queryInterface 9 IID.IID_IDeckLinkInput false] := by
  constructor
  · rfl
  · decide

/-! ## Sentinels (C6) -/

/-- C6: in every state of a prober, with or without monitor, in which
`GetSignalDetected()` is false, `GetDetectedMode()` is the empty string and
`GetPixelFormat()` is 0, whatever the monitor holds; and when
`GetSignalDetected()` is true there is a monitor and both return its current
values. -/
theorem sentinel_without_signal (p : DeviceProber) :
    (p.GetSignalDetected = false → p.GetDetectedMode = "" ∧ p.GetPixelFormat = 0) ∧
      (p.GetSignalDetected = true →
        ∃ m, p.m_captureDelegate = some m ∧ p.GetDetectedMode = m.detectedMode ∧
          p.GetPixelFormat = m.pixelFormat) := by
  cases hm : p.m_captureDelegate with
  | none => simp [DeviceProber.GetSignalDetected, DeviceProber.GetDetectedMode,
      DeviceProber.GetPixelFormat, hm]
  | some m =>
    cases hs : m.signalDetected <;>
      simp [DeviceProber.GetSignalDetected, DeviceProber.GetDetectedMode,
        DeviceProber.GetPixelFormat, hm, hs]

/-! ## SelectNextConnection without monitor (C8) -/

/-- C8: on a prober without monitor, any number `n` of successive calls of
`SelectNextConnection()` returns without fault and leaves the observable state
as it was: the world is untouched and the object is the same, so
`GetSignalDetected()` is still false, `GetActiveConnection()` still 0, and the
capability flags and the reference count are unchanged. -/
theorem selectNextConnection_without_monitor (p : DeviceProber) (n : Nat)
    (h : p.m_captureDelegate = none) :
    (∀ w : World, (calls (List.replicate n Call.SelectNextConnection) p).run w =
        (Except.ok (some p), w)) ∧
      Nat.iterate DeviceProber.SelectNextConnection n p = p ∧
      (Nat.iterate DeviceProber.SelectNextConnection n p).GetSignalDetected = false ∧
      (Nat.iterate DeviceProber.SelectNextConnection n p).GetActiveConnection = 0 ∧
      (Nat.iterate DeviceProber.SelectNextConnection n p).CanInput = p.CanInput ∧
      (Nat.iterate DeviceProber.SelectNextConnection n p).CanAutodetect = p.CanAutodetect ∧
      (Nat.iterate DeviceProber.SelectNextConnection n p).m_refCount = p.m_refCount := by
  have hstep : p.SelectNextConnection = p := by
    simp [DeviceProber.SelectNextConnection, h]
  have hcalls : ∀ (k : Nat) (w : World),
      (calls (List.replicate k Call.SelectNextConnection) p).run w = (Except.ok (some p), w) := by
    intro k
    induction k with
    | zero => intro w; rfl
    | succ j ih =>
      intro w
      simp only [List.replicate_succ, calls, DeviceProber.call, run_bind, run_pure, hstep]
      exact ih w
  have hfix : Nat.iterate DeviceProber.SelectNextConnection n p = p := by
    induction n with
    | zero => rfl
    | succ k ih => rw [Function.iterate_succ_apply, hstep, ih]
  refine ⟨hcalls n, ?_⟩
  rw [hfix]
  simp [DeviceProber.GetSignalDetected, DeviceProber.GetActiveConnection, h]

/-- C8 at `legacyProber`, five calls. -/
theorem selectNextConnection_without_monitor_witness :
    (∀ w : World, (calls (List.replicate 5 Call.SelectNextConnection) legacyProber).run w =
        (Except.ok (some legacyProber), w)) ∧
      Nat.iterate DeviceProber.SelectNextConnection 5 legacyProber = legacyProber ∧
      (Nat.iterate DeviceProber.SelectNextConnection 5 legacyProber).GetSignalDetected = false ∧
      (Nat.iterate DeviceProber.SelectNextConnection 5 legacyProber).GetActiveConnection = 0 ∧
      (Nat.iterate DeviceProber.SelectNextConnection 5 legacyProber).CanInput
        = legacyProber.CanInput ∧
      (Nat.iterate DeviceProber.SelectNextConnection 5 legacyProber).CanAutodetect
        = legacyProber.CanAutodetect ∧
      (Nat.iterate DeviceProber.SelectNextConnection 5 legacyProber).m_refCount
        = legacyProber.m_refCount :=
  selectNextConnection_without_monitor legacyProber 5 (by decide)

/-! ## Capability flags and the monitor (C4) -/

/-- What a call that leaves the object alive keeps: the capability flags and the
presence of the monitor. -/
theorem call_keeps_flags (p q : DeviceProber) (c : Call) (w w1 : World)
    (h : (p.call c).run w = (Except.ok (some q), w1)) :
    q.m_canInput = p.m_canInput ∧ q.m_canAutodetect = p.m_canAutodetect ∧
      q.m_captureDelegate.isSome = p.m_captureDelegate.isSome := by
  cases c
  case GetDeviceName =>
    cases hn : p.m_deckLink.displayName <;>
      simp [DeviceProber.call, DeviceProber.GetDeviceName, hn] at h
    obtain ⟨rfl, -⟩ := h
    simp
  case SelectNextConnection =>
    simp only [DeviceProber.call, run_pure, Prod.mk.injEq, Except.ok.injEq,
      Option.some.injEq] at h
    obtain ⟨rfl, -⟩ := h
    cases hm : p.m_captureDelegate <;> simp [DeviceProber.SelectNextConnection, hm]
  case AddRef =>
    simp only [DeviceProber.call, run_pure, Prod.mk.injEq, Except.ok.injEq,
      Option.some.injEq, DeviceProber.AddRef] at h
    obtain ⟨rfl, -⟩ := h
    simp
  case Release =>
    by_cases h0 : toInt32 (p.m_refCount - 1) = 0
    · exfalso
      cases hm : p.m_captureDelegate with
      | none =>
        simp [DeviceProber.call, DeviceProber.Release, IDeckLink.Release, h0, hm] at h
      | some m =>
        by_cases hq : m.refCount - 1 = 0
        · simp [DeviceProber.call, DeviceProber.Release, IDeckLink.Release,
            CaptureDelegate.Release, CaptureDelegate.Stop, assert, h0, hm, hq] at h
        · simp [DeviceProber.call, DeviceProber.Release, IDeckLink.Release,
            CaptureDelegate.Release, CaptureDelegate.Stop, assert, h0, hm, hq] at h
    · simp [DeviceProber.call, DeviceProber.Release, h0] at h
      obtain ⟨rfl, -⟩ := h
      simp
  all_goals
    simp only [DeviceProber.call, run_pure, Prod.mk.injEq, Except.ok.injEq,
      Option.some.injEq] at h
    obtain ⟨rfl, -⟩ := h
    simp

/-- What a sequence of calls that leaves the object alive keeps. -/
theorem calls_keep_flags (cs : List Call) :
    ∀ (p q : DeviceProber) (w w1 : World),
      (calls cs p).run w = (Except.ok (some q), w1) →
        q.m_canInput = p.m_canInput ∧ q.m_canAutodetect = p.m_canAutodetect ∧
          q.m_captureDelegate.isSome = p.m_captureDelegate.isSome := by
  induction cs with
  | nil =>
    intro p q w w1 h
    simp only [calls, run_pure, Prod.mk.injEq, Except.ok.injEq, Option.some.injEq] at h
    obtain ⟨rfl, -⟩ := h
    simp
  | cons c rest ih =>
    intro p q w w1 h
    simp only [calls, run_bind] at h
    rcases hc : (p.call c).run w with ⟨r, w2⟩
    rw [hc] at h
    cases r with
    | error s => simp at h
    | ok after =>
      cases after with
      | none =>
        cases rest <;> simp at h
      | some p1 =>
        simp only at h
        obtain ⟨a1, a2, a3⟩ := call_keeps_flags p p1 c w w2 hc
        obtain ⟨b1, b2, b3⟩ := ih p1 q w2 w1 h
        exact ⟨b1.trans a1, b2.trans a2, b3.trans a3⟩

/-- The constructor creates the monitor exactly when both flags are true. -/
theorem ctor_monitor_iff (d : IDeckLink) (w w1 : World) (p : DeviceProber)
    (h : (DeviceProber.ctor d).run w = (Except.ok p, w1)) :
    p.m_captureDelegate.isSome = (p.m_canInput && p.m_canAutodetect) ∧ p.m_refCount = 1 ∧
      p.m_deckLink = d := by
  cases ha : d.attributes with
  | none =>
    simp [DeviceProber.ctor, IDeckLink.AddRef, DeviceProber.queryAttributesInterface,
      IDeckLink.QueryInterface, IDeckLink.implements, ha] at h
  | some a =>
    cases hi : d.input with
    | false =>
      simp [DeviceProber.ctor, IDeckLink.AddRef, DeviceProber.queryAttributesInterface,
        DeviceProber.queryCanInput, IDeckLink.QueryInterface, IDeckLink.implements, ha, hi] at h
    | true =>
      cases hf : a.supportsInputFormatDetection with
      | none =>
        simp [DeviceProber.ctor, IDeckLink.AddRef, DeviceProber.queryAttributesInterface,
          DeviceProber.queryCanInput, DeviceProber.queryCanAutodetect,
          IDeckLink.QueryInterface, IDeckLink.implements, ha, hi, hf] at h
      | some b =>
        cases b <;>
          simp [DeviceProber.ctor, IDeckLink.AddRef, DeviceProber.queryAttributesInterface,
            DeviceProber.queryCanInput, DeviceProber.queryCanAutodetect,
            IDeckLink.QueryInterface, IDeckLink.implements, ha, hi, hf] at h <;>
          (obtain ⟨rfl, -⟩ := h; simp)

/-- C4: on every prober that the constructor has built, a monitor exists if and
only if `CanInput()` and `CanAutodetect()` are both true, and after any sequence
of public calls that leaves the object alive (so any `Release` in it is not the
final one) `CanInput()`, `CanAutodetect()` and the presence of the monitor are
what they were. -/
theorem monitor_iff_flags (d : IDeckLink) (w w1 : World) (p : DeviceProber)
    (h : (DeviceProber.ctor d).run w = (Except.ok p, w1)) :
    (p.m_captureDelegate.isSome = true ↔ p.CanInput = true ∧ p.CanAutodetect = true) ∧
      ∀ (cs : List Call) (w2 w3 : World) (q : DeviceProber),
        (calls cs p).run w2 = (Except.ok (some q), w3) →
          q.CanInput = p.CanInput ∧ q.CanAutodetect = p.CanAutodetect ∧
            q.m_captureDelegate.isSome = p.m_captureDelegate.isSome ∧
            (q.m_captureDelegate.isSome = true ↔ q.CanInput = true ∧ q.CanAutodetect = true) := by
  obtain ⟨hiff, -, -⟩ := ctor_monitor_iff d w w1 p h
  have hp : p.m_captureDelegate.isSome = true ↔ p.CanInput = true ∧ p.CanAutodetect = true := by
    rw [hiff]
    simp [DeviceProber.CanInput, DeviceProber.CanAutodetect]
  refine ⟨hp, ?_⟩
  intro cs w2 w3 q hq
  obtain ⟨a1, a2, a3⟩ := calls_keep_flags cs p q w2 w3 hq
  refine ⟨a1, a2, a3, ?_⟩
  rw [a3]
  simp only [DeviceProber.CanInput, DeviceProber.CanAutodetect, a1, a2]
  exact hp

/-- C4 at `captureCard`, on which the constructor builds `captureProber`. -/
theorem monitor_iff_flags_witness :
    (captureProber.m_captureDelegate.isSome = true ↔
        captureProber.CanInput = true ∧ captureProber.CanAutodetect = true) ∧
      ∀ (cs : List Call) (w2 w3 : World) (q : DeviceProber),
        (calls cs captureProber).run w2 = (Except.ok (some q), w3) →
          q.CanInput = captureProber.CanInput ∧ q.CanAutodetect = captureProber.CanAutodetect ∧
            q.m_captureDelegate.isSome = captureProber.m_captureDelegate.isSome ∧
            (q.m_captureDelegate.isSome = true ↔ q.CanInput = true ∧ q.CanAutodetect = true) :=
  monitor_iff_flags captureCard freshWorld ((DeviceProber.ctor captureCard).run freshWorld).2
    captureProber rfl

/-! ## Reference counting (C5) -/

/-- A `Release` that does not bring the count to 0 only stores the new count. -/
theorem release_nonfinal (p : DeviceProber) (w : World) (h : toInt32 (p.m_refCount - 1) ≠ 0) :
    p.Release.run w =
      (Except.ok (toULONG (toInt32 (p.m_refCount - 1)),
        some { p with m_refCount := toInt32 (p.m_refCount - 1) }), w) := by
  simp [DeviceProber.Release, h]

/-- A `Release` that brings the count to 0 runs the teardown, once the monitor's
own `Release` returns 0. -/
theorem release_final (p : DeviceProber) (w : World) (h : p.m_refCount = 1)
    (hquiet : ∀ m, p.m_captureDelegate = some m → m.refCount = 1) :
    p.Release.run w =
      (Except.ok (0, none),
        { w with
          refs := fun a => if a = p.m_deckLink.addr then w.refs a - p.held else w.refs a
          out := w.out ++ teardownTrace p }) := by
  cases hm : p.m_captureDelegate with
  | none =>
    simp only [DeviceProber.Release, IDeckLink.Release, h, hm, teardownTrace, run_bind,
      run_emit, run_adjust, run_refCountAt, run_pure, DeviceProber.held]
    simp only [sub_self, toInt32_zero, beq_self_eq_true, if_true, run_bind, run_emit, run_adjust,
      run_refCountAt, run_pure, List.append_assoc, List.cons_append, List.nil_append,
      List.append_nil]
    congr 2
    funext a
    by_cases ha : a = p.m_deckLink.addr <;> simp [ha]
    ring
  | some m =>
    have hq : m.refCount = 1 := hquiet m hm
    simp only [DeviceProber.Release, IDeckLink.Release, CaptureDelegate.Release,
      CaptureDelegate.Stop, assert, h, hm, hq, teardownTrace, run_bind,
      run_emit, run_adjust, run_refCountAt, run_pure, DeviceProber.held]
    simp only [sub_self, toInt32_zero, beq_self_eq_true, if_true, run_bind, run_emit, run_adjust,
      run_refCountAt, run_pure, List.append_assoc, List.cons_append, List.nil_append,
      List.append_nil]
    congr 2
    funext a
    by_cases ha : a = p.m_deckLink.addr <;> simp [ha]
    ring

/-- The counts along a sequence of `AddRef` and `Release` calls that starts at any
positive count and keeps the count below 2^31. -/
theorem refCalls_counts (cs : List RefCall) :
    ∀ (p : DeviceProber) (w : World),
      0 < p.m_refCount →
      (∀ m, p.m_captureDelegate = some m → m.refCount = 1) →
      (∀ k, k < cs.length → 0 < p.m_refCount + net (cs.take k)) →
      (∀ k, k ≤ cs.length → p.m_refCount + net (cs.take k) < 2 ^ 31) →
      ∃ rets q w1, (refCalls cs p).run w = (Except.ok (rets, q), w1) ∧
        rets.length = cs.length ∧
        (∀ k, k < cs.length → ∃ r, rets[k]? = some r ∧
          r.value = p.m_refCount + net (cs.take (k + 1)) ∧ (r.tornDown = true ↔ r.value = 0)) ∧
        (p.m_refCount + net cs ≠ 0 →
          q = some { p with m_refCount := p.m_refCount + net cs } ∧ w1 = w) ∧
        (p.m_refCount + net cs = 0 → q = none ∧ w1.out = w.out ++ teardownTrace p) := by
  induction cs with
  | nil =>
    intro p w hc0 _ _ _
    refine ⟨[], some p, w, rfl, rfl, ?_, ?_, ?_⟩
    · intro k hk
      simp at hk
    · intro _
      simp [net]
    · intro h0
      simp only [net, add_zero] at h0
      omega
  | cons c rest ih =>
    intro p w hc0 hquiet hpos hlt
    have hlt1 := hlt 1 (by simp)
    cases c with
    | AddRef =>
      have hnext : p.m_refCount + 1 < 2 ^ 31 := by
        simpa [net] using hlt1
      have hstore : toInt32 (p.m_refCount + 1) = p.m_refCount + 1 :=
        toInt32_of_range _ (by norm_num; omega) hnext
      have hret : toULONG (p.m_refCount + 1) = p.m_refCount + 1 :=
        toULONG_of_range _ (by omega) (by norm_num at hnext ⊢; omega)
      have hpos1 : ∀ k, k < rest.length →
          0 < ({ p with m_refCount := p.m_refCount + 1 } : DeviceProber).m_refCount
            + net (rest.take k) := by
        intro k hk
        have := hpos (k + 1) (by simpa using hk)
        simp only [List.take_succ_cons, net] at this
        show 0 < p.m_refCount + 1 + net (rest.take k)
        omega
      have hlt2 : ∀ k, k ≤ rest.length →
          ({ p with m_refCount := p.m_refCount + 1 } : DeviceProber).m_refCount
            + net (rest.take k) < 2 ^ 31 := by
        intro k hk
        have := hlt (k + 1) (by simpa using hk)
        simp only [List.take_succ_cons, net] at this
        show p.m_refCount + 1 + net (rest.take k) < 2 ^ 31
        omega
      obtain ⟨rets, q, w1, hrun, hlen, hval, halive, hdead⟩ :=
        ih { p with m_refCount := p.m_refCount + 1 } w
          (by show 0 < p.m_refCount + 1; omega) hquiet hpos1 hlt2
      refine ⟨{ value := p.m_refCount + 1, tornDown := false } :: rets, q, w1, ?_, ?_, ?_, ?_, ?_⟩
      · simp only [refCalls, run_bind, DeviceProber.AddRef, hstore, hret, hrun, run_pure]
      · simp [hlen]
      · intro k hk
        cases k with
        | zero =>
          refine ⟨{ value := p.m_refCount + 1, tornDown := false }, by simp, ?_, ?_⟩
          · simp [net]
          · simp; omega
        | succ j =>
          have hj : j < rest.length := by simpa using hk
          obtain ⟨r, hr, hv, ht⟩ := hval j hj
          refine ⟨r, by simpa using hr, ?_, ht⟩
          rw [hv]
          simp only [List.take_succ_cons, net]
          ring
      · intro hne
        have e : p.m_refCount + 1 + net rest = p.m_refCount + net (RefCall.AddRef :: rest) := by
          simp only [net]; ring
        have := halive (by show p.m_refCount + 1 + net rest ≠ 0; rw [e]; exact hne)
        simpa [e] using this
      · intro h0
        have e : p.m_refCount + 1 + net rest = p.m_refCount + net (RefCall.AddRef :: rest) := by
          simp only [net]; ring
        have := hdead (by show p.m_refCount + 1 + net rest = 0; rw [e]; exact h0)
        simpa [teardownTrace] using this
    | Release =>
      have hc1 : p.m_refCount < 2 ^ 31 := by
        have := hlt 0 (by simp)
        simpa [net] using this
      have hstore : toInt32 (p.m_refCount - 1) = p.m_refCount - 1 :=
        toInt32_of_range _ (by norm_num; omega) (by omega)
      have hret : toULONG (p.m_refCount - 1) = p.m_refCount - 1 :=
        toULONG_of_range _ (by omega) (by norm_num at hc1 ⊢; omega)
      by_cases hlast : p.m_refCount - 1 = 0
      · have h1 : p.m_refCount = 1 := by omega
        cases rest with
        | cons c2 rest2 =>
          exfalso
          have := hpos 1 (by simp)
          simp [net] at this
          omega
        | nil =>
          refine ⟨[{ value := 0, tornDown := true }], none, (p.Release.run w).2,
            ?_, rfl, ?_, ?_, ?_⟩
          · simp only [refCalls, run_bind, release_final p w h1 hquiet, run_pure]
          · intro k hk
            have hk0 : k = 0 := by simpa using hk
            subst hk0
            refine ⟨{ value := 0, tornDown := true }, by simp, ?_, ?_⟩
            · simp [net, h1]
            · simp
          · intro hne
            exfalso
            apply hne
            simp [net, h1]
          · intro _
            simp [release_final p w h1 hquiet]
      · have hpos1 : ∀ k, k < rest.length →
            0 < ({ p with m_refCount := p.m_refCount - 1 } : DeviceProber).m_refCount
              + net (rest.take k) := by
          intro k hk
          have := hpos (k + 1) (by simpa using hk)
          simp only [List.take_succ_cons, net] at this
          show 0 < p.m_refCount - 1 + net (rest.take k)
          omega
        have hlt2 : ∀ k, k ≤ rest.length →
            ({ p with m_refCount := p.m_refCount - 1 } : DeviceProber).m_refCount
              + net (rest.take k) < 2 ^ 31 := by
          intro k hk
          have := hlt (k + 1) (by simpa using hk)
          simp only [List.take_succ_cons, net] at this
          show p.m_refCount - 1 + net (rest.take k) < 2 ^ 31
          omega
        have hlast2 : toInt32 (p.m_refCount - 1) ≠ 0 := by rw [hstore]; exact hlast
        obtain ⟨rets, q, w1, hrun, hlen, hval, halive, hdead⟩ :=
          ih { p with m_refCount := p.m_refCount - 1 } w
            (by show 0 < p.m_refCount - 1; omega) hquiet hpos1 hlt2
        refine ⟨{ value := p.m_refCount - 1, tornDown := false } :: rets, q, w1, ?_, ?_, ?_, ?_, ?_⟩
        · simp only [refCalls, run_bind, release_nonfinal p w hlast2, hstore, hret, hrun,
            run_pure]
        · simp [hlen]
        · intro k hk
          cases k with
          | zero =>
            refine ⟨{ value := p.m_refCount - 1, tornDown := false }, by simp, ?_, ?_⟩
            · simp [net]; ring
            · simp; omega
          | succ j =>
            have hj : j < rest.length := by simpa using hk
            obtain ⟨r, hr, hv, ht⟩ := hval j hj
            refine ⟨r, by simpa using hr, ?_, ht⟩
            rw [hv]
            simp only [List.take_succ_cons, net]
            ring
        · intro hne
          have e : p.m_refCount - 1 + net rest = p.m_refCount + net (RefCall.Release :: rest) := by
            simp only [net]; ring
          have := halive (by show p.m_refCount - 1 + net rest ≠ 0; rw [e]; exact hne)
          simpa [e] using this
        · intro h0
          have e : p.m_refCount - 1 + net rest = p.m_refCount + net (RefCall.Release :: rest) := by
            simp only [net]; ring
          have := hdead (by show p.m_refCount - 1 + net rest = 0; rw [e]; exact h0)
          simpa [teardownTrace] using this

theorem net_append (a b : List RefCall) : net (a ++ b) = net a + net b := by
  induction a with
  | nil => simp [net]
  | cons c rest ih =>
    rw [List.cons_append]
    cases c
    · simp only [net]
      rw [ih]
      ring
    · simp only [net]
      rw [ih]
      ring

theorem net_replicate_addRef (n : Nat) : net (List.replicate n RefCall.AddRef) = n := by
  induction n with
  | zero => simp [net]
  | succ k ih =>
    simp only [List.replicate_succ, net, ih]
    push_cast
    ring

theorem take_replicate_append (n k : Nat) (rest : List RefCall) (h : k ≤ n) :
    (List.replicate n RefCall.AddRef ++ rest).take k = List.replicate k RefCall.AddRef := by
  rw [List.take_append_of_le_length (by simpa using h), List.take_replicate, min_eq_left h]

/-- A run of `n` calls of `AddRef` in front of other calls: the stored count
wraps around. -/
theorem refCalls_addRefs (n : Nat) :
    ∀ (p : DeviceProber) (w w1 : World) (rest : List RefCall) (rets : List RefReturn)
      (q : Option DeviceProber),
      toInt32 p.m_refCount = p.m_refCount →
      (refCalls rest { p with m_refCount := toInt32 (p.m_refCount + n) }).run w =
        (Except.ok (rets, q), w1) →
      ∃ front, front.length = n ∧
        (refCalls (List.replicate n RefCall.AddRef ++ rest) p).run w =
          (Except.ok (front ++ rets, q), w1) := by
  induction n with
  | zero =>
    intro p w w1 rest rets q hp h
    refine ⟨[], rfl, ?_⟩
    simp only [Nat.cast_zero, add_zero, hp] at h
    simpa using h
  | succ k ih =>
    intro p w w1 rest rets q _ h
    have hidem : toInt32 (toInt32 (p.m_refCount + 1)) = toInt32 (p.m_refCount + 1) := by
      have := toInt32_add (p.m_refCount + 1) 0
      simpa using this
    have hsum : toInt32 (toInt32 (p.m_refCount + 1) + (k : Int)) =
        toInt32 (p.m_refCount + ((k + 1 : Nat) : Int)) := by
      rw [toInt32_add]
      congr 1
      push_cast
      ring
    have h2 : (refCalls rest
        { p with m_refCount := toInt32 (toInt32 (p.m_refCount + 1) + (k : Int)) }).run w =
        (Except.ok (rets, q), w1) := by
      rw [hsum]
      exact h
    obtain ⟨front, hlen, hrun⟩ := ih { p with m_refCount := toInt32 (p.m_refCount + 1) } w w1
      rest rets q hidem h2
    refine ⟨{ value := toULONG (toInt32 (p.m_refCount + 1)), tornDown := false } :: front,
      by simp [hlen], ?_⟩
    rw [List.replicate_succ, List.cons_append]
    simp only [refCalls, run_bind, DeviceProber.AddRef, hrun, run_pure, List.cons_append]

/-- C5 as stated fails in three ways. After 2147483647 = 2^31 - 1 calls of
`AddRef` on `legacyProber`, after each of which but the last the stored count is
`1 + AddRefs`, a positive number, the stored count is -2^31 and not 2^31: the
32-bit counter has overflowed. After 4294967296 = 2^32 calls of `AddRef`, before
each of which and after which the count `1 + AddRefs - Releases` is positive,
one `Release` leaves that count at 2^32, yet it returns 0 and runs the teardown:
the counter has wrapped around to 1. And on `busyProber`, whose monitor has a
second outstanding reference, the `Release` that brings the count from 1 to 0
does not return: the teardown stops at its assertion. -/
theorem refcount_counterexample :
    (∀ k : Nat, k < 2147483647 → ∃ front,
        (refCalls (List.replicate k RefCall.AddRef) legacyProber).run freshWorld =
          (Except.ok (front, some { legacyProber with m_refCount := 1 + (k : Int) }),
            freshWorld)) ∧
      (∃ front, (refCalls (List.replicate 2147483647 RefCall.AddRef) legacyProber).run
          freshWorld =
        (Except.ok (front, some { legacyProber with m_refCount := -2147483648 }), freshWorld)) ∧
      1 + net (List.replicate 2147483647 RefCall.AddRef) = 2147483648 ∧
      (∀ k, k < (List.replicate 4294967296 RefCall.AddRef ++ [RefCall.Release]).length →
        0 < 1 + net ((List.replicate 4294967296 RefCall.AddRef ++ [RefCall.Release]).take k)) ∧
      1 + net (List.replicate 4294967296 RefCall.AddRef ++ [RefCall.Release]) = 4294967296 ∧
      (∃ front w1,
        (refCalls (List.replicate 4294967296 RefCall.AddRef ++ [RefCall.Release])
            legacyProber).run freshWorld =
          (Except.ok (front ++ [{ value := 0, tornDown := true }], none), w1) ∧
        w1.out = teardownTrace legacyProber) ∧
      busyProber.m_refCount = 1 ∧
      ((refCalls [RefCall.Release] busyProber).run freshWorld).1 =
        Except.error Stop.assertFailed := by
  refine ⟨?_, ?_, ?_, ?_, ?_, ?_, rfl, rfl⟩
  · intro k hk
    have hcount : toInt32 (legacyProber.m_refCount + (k : Int)) = 1 + (k : Int) := by
      show toInt32 (1 + (k : Int)) = 1 + (k : Int)
      apply toInt32_of_range
      · have : (0 : Int) ≤ (k : Int) := Int.ofNat_nonneg k
        norm_num
        omega
      · have : (k : Int) < 2147483647 := by exact_mod_cast hk
        norm_num
        omega
    obtain ⟨front, -, hrun⟩ := refCalls_addRefs k legacyProber freshWorld freshWorld []
      [] (some { legacyProber with m_refCount := toInt32 (legacyProber.m_refCount + (k : Int)) })
      (by decide) rfl
    rw [List.append_nil, List.append_nil, hcount] at hrun
    exact ⟨front, hrun⟩
  · have hcount : toInt32 (legacyProber.m_refCount + ((2147483647 : Nat) : Int)) =
        -2147483648 := by decide
    obtain ⟨front, -, hrun⟩ := refCalls_addRefs 2147483647 legacyProber freshWorld freshWorld []
      [] (some { legacyProber with
        m_refCount := toInt32 (legacyProber.m_refCount + ((2147483647 : Nat) : Int)) })
      (by decide) rfl
    rw [List.append_nil, List.append_nil, hcount] at hrun
    exact ⟨front, hrun⟩
  · rw [net_replicate_addRef]
    norm_num
  · intro k hk
    have hk2 : k ≤ 4294967296 := by
      rw [List.length_append, List.length_replicate, List.length_singleton] at hk
      omega
    rw [take_replicate_append _ _ _ hk2, net_replicate_addRef]
    omega
  · rw [net_append, net_replicate_addRef]
    simp only [net]
    norm_num
  · have hcount : toInt32 (legacyProber.m_refCount + ((4294967296 : Nat) : Int)) = 1 := by
      decide
    have hrelease : (refCalls [RefCall.Release]
        { legacyProber with
          m_refCount := toInt32 (legacyProber.m_refCount + ((4294967296 : Nat) : Int)) }).run
          freshWorld =
        (Except.ok ([{ value := 0, tornDown := true }], none),
          ((refCalls [RefCall.Release] legacyProber).run freshWorld).2) := by
      rw [hcount]
      rfl
    obtain ⟨front, -, hrun⟩ := refCalls_addRefs 4294967296 legacyProber freshWorld
      ((refCalls [RefCall.Release] legacyProber).run freshWorld).2 [RefCall.Release]
      [{ value := 0, tornDown := true }] none (by decide) hrelease
    exact ⟨front, _, hrun, rfl⟩

/-- C5, amended: the constructor sets the count to 1; and on a prober with count
1 whose monitor, if it has one, has no other outstanding reference (so that the
assertion of the teardown holds), for every sequence of `AddRef` and `Release`
calls before each of which the count `1 + AddRefs - Releases` is positive and
throughout which it stays below 2^31, every call returns and returns the new
count, that is also the count stored at the end, and the teardown runs in the
call that returns 0, which can only be the last one, and in no other: the
object is then deleted and the trace has grown by one teardown, and otherwise
the world is untouched. -/
theorem refcount_calls (p : DeviceProber) (w : World) (cs : List RefCall)
    (hnew : p.m_refCount = 1)
    (hquiet : ∀ m, p.m_captureDelegate = some m → m.refCount = 1)
    (hpos : ∀ k, k < cs.length → 0 < 1 + net (cs.take k))
    (hbound : ∀ k, k ≤ cs.length → 1 + net (cs.take k) < 2 ^ 31) :
    (∀ (d : IDeckLink) (w0 w1 : World) (p0 : DeviceProber),
        (DeviceProber.ctor d).run w0 = (Except.ok p0, w1) → p0.m_refCount = 1) ∧
      ∃ rets q w1, (refCalls cs p).run w = (Except.ok (rets, q), w1) ∧
        rets.length = cs.length ∧
        (∀ k, k < cs.length → ∃ r, rets[k]? = some r ∧
          r.value = 1 + net (cs.take (k + 1)) ∧ (r.tornDown = true ↔ r.value = 0) ∧
          (r.tornDown = true → k + 1 = cs.length)) ∧
        (1 + net cs ≠ 0 → q = some { p with m_refCount := 1 + net cs } ∧ w1 = w) ∧
        (1 + net cs = 0 → q = none ∧ w1.out = w.out ++ teardownTrace p) := by
  refine ⟨fun d w0 w1 p0 h => (ctor_monitor_iff d w0 w1 p0 h).2.1, ?_⟩
  obtain ⟨rets, q, w1, hrun, hlen, hval, halive, hdead⟩ :=
    refCalls_counts cs p w (by omega) hquiet (by simpa [hnew] using hpos)
      (by simpa [hnew] using hbound)
  rw [hnew] at hval halive hdead
  refine ⟨rets, q, w1, hrun, hlen, ?_, halive, hdead⟩
  intro k hk
  obtain ⟨r, hr, hv, ht⟩ := hval k hk
  refine ⟨r, hr, hv, ht, ?_⟩
  intro htorn
  by_contra hne
  have hlt : k + 1 < cs.length := by omega
  have hp := hpos (k + 1) hlt
  have h0 := ht.mp htorn
  omega

/-- The amended C5 at `captureProber` and the calls AddRef, Release, AddRef,
Release, Release. -/
theorem refcount_calls_witness :
    (∀ (d : IDeckLink) (w0 w1 : World) (p0 : DeviceProber),
        (DeviceProber.ctor d).run w0 = (Except.ok p0, w1) → p0.m_refCount = 1) ∧
      ∃ rets q w1,
        (refCalls [RefCall.AddRef, RefCall.Release, RefCall.AddRef, RefCall.Release,
          RefCall.Release] captureProber).run freshWorld = (Except.ok (rets, q), w1) ∧
        rets.length = [RefCall.AddRef, RefCall.Release, RefCall.AddRef, RefCall.Release,
          RefCall.Release].length ∧
        (∀ k, k < [RefCall.AddRef, RefCall.Release, RefCall.AddRef, RefCall.Release,
            RefCall.Release].length → ∃ r, rets[k]? = some r ∧
          r.value = 1 + net ([RefCall.AddRef, RefCall.Release, RefCall.AddRef,
            RefCall.Release, RefCall.Release].take (k + 1)) ∧
          (r.tornDown = true ↔ r.value = 0) ∧
          (r.tornDown = true → k + 1 = [RefCall.AddRef, RefCall.Release, RefCall.AddRef,
            RefCall.Release, RefCall.Release].length)) ∧
        (1 + net [RefCall.AddRef, RefCall.Release, RefCall.AddRef, RefCall.Release,
            RefCall.Release] ≠ 0 →
          q = some { captureProber with m_refCount := 1 + net [RefCall.AddRef,
            RefCall.Release, RefCall.AddRef, RefCall.Release, RefCall.Release] } ∧
          w1 = freshWorld) ∧
        (1 + net [RefCall.AddRef, RefCall.Release, RefCall.AddRef, RefCall.Release,
            RefCall.Release] = 0 →
          q = none ∧ w1.out = freshWorld.out ++ teardownTrace captureProber) :=
  refcount_calls captureProber freshWorld
    [RefCall.AddRef, RefCall.Release, RefCall.AddRef, RefCall.Release, RefCall.Release]
    (by decide)
    (by intro m hm; cases hm; rfl)
    (by decide) (by decide)

/-! ## One iteration of the display loop (C9) -/

/-- The inner loop of `_main` in closed form. -/
theorem selectConnections_run (ps : List DeviceProber) :
    ∀ w : World, (selectConnections ps).run w =
      (Except.ok (ps.map (fun p => if p.GetSignalDetected then p else p.SelectNextConnection)),
        { w with
          out := w.out ++ List.map (fun p => Event.selectNextConnection p.m_deckLink.addr)
            (ps.filter (fun p => !p.GetSignalDetected)) }) := by
  induction ps with
  | nil => intro w; simp [selectConnections]
  | cons p rest ih =>
    intro w
    cases hs : p.GetSignalDetected <;>
      simp [selectConnections, hs, ih]

/-- Signals only ever set the flag, and only SIGINT and SIGTERM do. -/
theorem deliver_run (signals : List Int) :
    ∀ w : World, (deliver signals).run w =
      (Except.ok (),
        { w with
          g_do_exit := w.g_do_exit || signals.any (fun s => s == SIGINT || s == SIGTERM) }) := by
  induction signals with
  | nil => intro w; simp [deliver]
  | cons s rest ih =>
    intro w
    by_cases h : (s == SIGINT || s == SIGTERM) = true
    · simp [deliver, sigfunc, set_g_do_exit, h, ih]
    · simp [deliver, sigfunc, h, ih]

theorem printed_refl (w : World) : Printed w w :=
  ⟨rfl, rfl, [], by simp, by simp, by simp⟩

theorem printed_trans {w w1 w2 : World} (h1 : Printed w w1) (h2 : Printed w1 w2) :
    Printed w w2 := by
  obtain ⟨a1, b1, e1, c1, d1, s1⟩ := h1
  obtain ⟨a2, b2, e2, c2, d2, s2⟩ := h2
  refine ⟨a2.trans a1, b2.trans b1, e1 ++ e2, ?_, ?_, ?_⟩
  · rw [c2, c1, List.append_assoc]
  · intro a
    simp [d1 a, d2 a]
  · intro n
    simp [s1 n, s2 n]

theorem printed_emit (w : World) (e : Event) (h : ∀ a, e ≠ Event.selectNextConnection a)
    (hs : ∀ n, e ≠ Event.sleep n) :
    Printed w { w with out := w.out ++ [e] } :=
  ⟨rfl, rfl, [e], rfl, by
    intro a
    simp only [List.mem_singleton]
    exact fun hh => h a hh.symm, by
    intro n
    simp only [List.mem_singleton]
    exact fun hh => hs n hh.symm⟩

/-- The rows of the table are output alone. -/
theorem printRows_printed (ps : List DeviceProber) :
    ∀ (k : Nat) (w : World), Printed w ((printRows ps k).run w).2 := by
  induction ps with
  | nil => intro k w; exact printed_refl w
  | cons p rest ih =>
    intro k w
    have hgrey : ∀ w0 : World, Printed w0
        ((if (!p.GetSignalDetected) = true then emit Event.greyon else pure PUnit.unit).run w0).2 := by
      intro w0
      cases p.GetSignalDetected
      · exact printed_emit w0 _ (by intro a; simp) (by intro n; simp)
      · exact printed_refl w0
    cases hn : p.m_deckLink.displayName with
    | none =>
      cases hs : p.GetSignalDetected
      · simp only [printRows, DeviceProber.GetDeviceName, hn, hs, run_bind, run_emit, run_halt,
          Bool.not_false, if_true]
        exact printed_trans (printed_emit w _ (by intro a; simp) (by intro n; simp))
          (printed_emit _ _ (by intro a; simp) (by intro n; simp))
      · simp only [printRows, DeviceProber.GetDeviceName, hn, hs, run_bind, run_emit, run_halt,
          Bool.not_true, run_pure]
        exact (printed_emit _ _ (by intro a; simp) (by intro n; simp))
    | some name =>
      cases hs : p.GetSignalDetected
      · simp only [printRows, DeviceProber.GetDeviceName, hn, hs, run_bind, run_emit, run_halt,
          Bool.not_false, if_true, run_pure]
        refine printed_trans ?_ (ih _ _)
        exact printed_trans (printed_emit w _ (by intro a; simp) (by intro n; simp))
          (printed_emit _ _ (by intro a; simp) (by intro n; simp))
      · simp only [printRows, DeviceProber.GetDeviceName, hn, hs, run_bind, run_emit, run_halt,
          Bool.not_true, run_pure]
        refine printed_trans ?_ (ih _ _)
        exact (printed_emit _ _ (by intro a; simp) (by intro n; simp))

/-- The rows are printed to the end when every handle gives its name. -/
theorem printRows_ok (ps : List DeviceProber) :
    ∀ (k : Nat) (w : World), (∀ p ∈ ps, p.m_deckLink.displayName ≠ none) →
      ((printRows ps k).run w).1 = Except.ok () := by
  induction ps with
  | nil => intro k w _; rfl
  | cons p rest ih =>
    intro k w h
    have hp := h p (by simp)
    cases hn : p.m_deckLink.displayName with
    | none => exact absurd hn hp
    | some name =>
      have hrest : ∀ q ∈ rest, q.m_deckLink.displayName ≠ none :=
        fun q hq => h q (by simp [hq])
      cases hs : p.GetSignalDetected <;>
        simp only [printRows, DeviceProber.GetDeviceName, hn, hs, run_bind, run_emit,
          Bool.not_false, Bool.not_true, if_true, run_pure] <;>
        exact ih _ _ hrest

/-- The table is output alone. -/
theorem printStatusList_printed (ps : List DeviceProber) (iteration : Nat) (w : World) :
    Printed w ((printStatusList ps iteration).run w).2 := by
  have key : ∀ wu : World, Printed w wu →
      Printed w ((do
        emit Event.tableHeader
        printRows ps 0
        emit Event.tableFooter
        emit (Event.scanning (iterationSign iteration)) : Prog Unit).run wu).2 := by
    intro wu h1
    simp only [run_bind, run_emit]
    rcases hr : (printRows ps 0).run { wu with out := wu.out ++ [Event.tableHeader] } with ⟨rr, wr⟩
    have h3 := printRows_printed ps 0 { wu with out := wu.out ++ [Event.tableHeader] }
    rw [hr] at h3
    have h4 : Printed w wr :=
      printed_trans (printed_trans h1 (printed_emit wu _ (by intro a; simp) (by intro n; simp))) h3
    cases rr with
    | error s => exact h4
    | ok u =>
      exact printed_trans h4 (printed_trans (printed_emit wr _ (by intro a; simp) (by intro n; simp))
        (printed_emit _ _ (by intro a; simp) (by intro n; simp)))
  by_cases hi : iteration > 0
  · simp only [printStatusList, hi, if_true]
    rw [run_bind]
    simp only [run_emit]
    exact key _ (printed_emit w _ (by intro a; simp) (by intro n; simp))
  · simp only [printStatusList, hi, if_false]
    rw [run_bind]
    simp only [run_pure]
    exact key _ (printed_refl w)

/-- The table is printed to the end when every handle gives its name. -/
theorem printStatusList_ok (ps : List DeviceProber) (iteration : Nat) (w : World)
    (h : ∀ p ∈ ps, p.m_deckLink.displayName ≠ none) :
    ((printStatusList ps iteration).run w).1 = Except.ok () := by
  have key : ∀ wu : World,
      ((do
        emit Event.tableHeader
        printRows ps 0
        emit Event.tableFooter
        emit (Event.scanning (iterationSign iteration)) : Prog Unit).run wu).1 = Except.ok () := by
    intro wu
    simp only [run_bind, run_emit]
    rcases hr : (printRows ps 0).run { wu with out := wu.out ++ [Event.tableHeader] } with ⟨rr, wr⟩
    have := printRows_ok ps 0 { wu with out := wu.out ++ [Event.tableHeader] } h
    rw [hr] at this
    simp only at this
    subst this
    rfl
  by_cases hi : iteration > 0
  · simp only [printStatusList, hi, if_true]
    rw [run_bind]
    simp only [run_emit]
    exact key _
  · simp only [printStatusList, hi, if_false]
    rw [run_bind]
    simp only [run_pure]
    exact key _

/-- The table starts with its header, whatever happens after. -/
theorem printStatusList_header (ps : List DeviceProber) (iteration : Nat) (w : World) :
    Event.tableHeader ∈ ((printStatusList ps iteration).run w).2.out := by
  have key : ∀ wu : World,
      Event.tableHeader ∈ ((do
        emit Event.tableHeader
        printRows ps 0
        emit Event.tableFooter
        emit (Event.scanning (iterationSign iteration)) : Prog Unit).run wu).2.out := by
    intro wu
    simp only [run_bind, run_emit]
    rcases hr : (printRows ps 0).run { wu with out := wu.out ++ [Event.tableHeader] } with ⟨rr, wr⟩
    obtain ⟨-, -, printed, hout, -, -⟩ :=
      printRows_printed ps 0 { wu with out := wu.out ++ [Event.tableHeader] }
    rw [hr] at hout
    simp only at hout
    cases rr with
    | error s => simp [hout]
    | ok u => simp [hout]
  by_cases hi : iteration > 0
  · simp only [printStatusList, hi, if_true]
    rw [run_bind]
    simp only [run_emit]
    exact key _
  · simp only [printStatusList, hi, if_false]
    rw [run_bind]
    simp only [run_pure]
    exact key _

/-- A snapshot changes nothing that reference counting and teardown depend on. -/
theorem observeAll_lifetime (os : List (Option Observation)) :
    ∀ ps : List DeviceProber,
      (observeAll os ps).map DeviceProber.lifetime = ps.map DeviceProber.lifetime := by
  induction os with
  | nil => intro ps; cases ps <;> simp [observeAll]
  | cons o rest ih =>
    intro ps
    cases ps with
    | nil => simp [observeAll]
    | cons p tail =>
      simp only [observeAll, List.map_cons, ih tail, List.cons.injEq, and_true]
      cases o with
      | none => rfl
      | some ob =>
        cases hm : p.m_captureDelegate with
        | none => simp [hm]
        | some m => simp [hm, DeviceProber.lifetime, CaptureDelegate.observe]

/-- Selecting the next connection changes nothing that reference counting and
teardown depend on. -/
theorem advance_lifetime (ps : List DeviceProber) :
    (ps.map (fun p => if p.GetSignalDetected then p else p.SelectNextConnection)).map
        DeviceProber.lifetime = ps.map DeviceProber.lifetime := by
  rw [List.map_map]
  apply List.map_congr_left
  intro p _
  simp only [Function.comp]
  cases p.GetSignalDetected
  · cases hm : p.m_captureDelegate with
    | none => simp [DeviceProber.SelectNextConnection, hm]
    | some m =>
      simp [DeviceProber.SelectNextConnection, hm, DeviceProber.lifetime,
        CaptureDelegate.SelectNextConnection]
  · simp

/-- Handles with a name keep it across lists with the same lifetimes. -/
theorem names_of_lifetime (ps qs : List DeviceProber)
    (h : qs.map DeviceProber.lifetime = ps.map DeviceProber.lifetime)
    (hn : ∀ p ∈ ps, p.m_deckLink.displayName ≠ none) :
    ∀ q ∈ qs, q.m_deckLink.displayName ≠ none := by
  intro q hq
  have : q.lifetime ∈ ps.map DeviceProber.lifetime := by
    rw [← h]
    exact List.mem_map_of_mem _ hq
  obtain ⟨p, hp, hpq⟩ := List.mem_map.mp this
  have hd : p.m_deckLink = q.m_deckLink := by
    have := congrArg (fun x => x.2.1) hpq
    simpa [DeviceProber.lifetime] using this
  rw [← hd]
  exact hn p hp

/-- One iteration of the display loop when every handle gives its name. -/
theorem displayLoopBody_run (t : Tick) (ps : List DeviceProber) (iteration : Nat) (w : World)
    (h : ∀ p ∈ ps, p.m_deckLink.displayName ≠ none) :
    ∃ w1, Printed w w1 ∧
      (displayLoopBody t ps iteration).run w =
        (Except.ok (List.map (fun p => if p.GetSignalDetected then p else p.SelectNextConnection)
            (observeAll t.monitors ps)),
          { w1 with
            g_do_exit := w1.g_do_exit || t.signals.any (fun s => s == SIGINT || s == SIGTERM)
            out := w1.out ++ List.map (fun p => Event.selectNextConnection p.m_deckLink.addr)
              ((observeAll t.monitors ps).filter (fun p => !p.GetSignalDetected)) ++
              [Event.sleep 1] }) := by
  have hn := names_of_lifetime ps (observeAll t.monitors ps) (observeAll_lifetime _ _) h
  have hok := printStatusList_ok (observeAll t.monitors ps) iteration w hn
  have hpr := printStatusList_printed (observeAll t.monitors ps) iteration w
  rcases hrun : (printStatusList (observeAll t.monitors ps) iteration).run w with ⟨r, w1⟩
  rw [hrun] at hok hpr
  simp only at hok hpr
  subst hok
  refine ⟨w1, hpr, ?_⟩
  simp only [displayLoopBody, run_bind, hrun, selectConnections_run, run_emit, deliver_run,
    run_pure]

/-- C9: the inner loop of one iteration of the main loop visits the probers in
registry order and calls `SelectNextConnection()` once on each prober whose
`GetSignalDetected()` is false when it is visited and on no other; so a prober
whose monitor probes connector `i` of `N` is at `(i+1) mod N` after the
iteration when it reports no signal and still at `i` when it reports one. In a
whole iteration (snapshot, table, inner loop, sleep, signals), when every handle
gives its name for the table, these calls are the only ones: the table adds no
call to the trace. -/
theorem select_once_per_silent_device (deviceProbers : List DeviceProber) (w : World) :
    (selectConnections deviceProbers).run w =
        (Except.ok (deviceProbers.map
            (fun p => if p.GetSignalDetected then p else p.SelectNextConnection)),
          { w with
            out := w.out ++ List.map (fun p => Event.selectNextConnection p.m_deckLink.addr)
              (deviceProbers.filter (fun p => !p.GetSignalDetected)) }) ∧
      (∀ p ∈ deviceProbers, ∀ m, p.m_captureDelegate = some m →
        (if p.GetSignalDetected then p else p.SelectNextConnection).GetActiveConnection =
          if m.signalDetected then m.connection else (m.connection + 1) % m.connections) ∧
      (∀ (t : Tick) (before : List DeviceProber) (iteration : Nat),
        deviceProbers = observeAll t.monitors before →
        (∀ p ∈ before, p.m_deckLink.displayName ≠ none) →
        ∃ w1, Printed w w1 ∧
          (displayLoopBody t before iteration).run w =
            (Except.ok (deviceProbers.map
                (fun p => if p.GetSignalDetected then p else p.SelectNextConnection)),
              { w1 with
                g_do_exit :=
                  w1.g_do_exit || t.signals.any (fun s => s == SIGINT || s == SIGTERM)
                out := w1.out ++
                  List.map (fun p => Event.selectNextConnection p.m_deckLink.addr)
                    (deviceProbers.filter (fun p => !p.GetSignalDetected)) ++
                  [Event.sleep 1] })) := by
  refine ⟨selectConnections_run deviceProbers w, ?_, ?_⟩
  · intro p _ m hm
    cases hs : m.signalDetected <;>
      simp [DeviceProber.GetSignalDetected, DeviceProber.GetActiveConnection,
        DeviceProber.SelectNextConnection, CaptureDelegate.SelectNextConnection, hm, hs]
  · intro t before iteration hobs hnames
    subst hobs
    exact displayLoopBody_run t before iteration w hnames

/-! ## No device (C7) -/

/-- Every construction of a prober, complete or not, starts with `AddRef` on
the handle, which stays in the trace. -/
theorem ctor_marks_trace (d : IDeckLink) (w : World) :
    Event.deckLinkAddRef d.addr ∈ ((DeviceProber.ctor d).run w).2.out := by
  cases ha : d.attributes with
  | none =>
    simp [DeviceProber.ctor, IDeckLink.AddRef, DeviceProber.queryAttributesInterface,
      IDeckLink.QueryInterface, IDeckLink.implements, ha]
  | some a =>
    cases hi : d.input with
    | false =>
      simp [DeviceProber.ctor, IDeckLink.AddRef, DeviceProber.queryAttributesInterface,
        DeviceProber.queryCanInput, IDeckLink.QueryInterface, IDeckLink.implements, ha, hi]
    | true =>
      cases hf : a.supportsInputFormatDetection with
      | none =>
        simp [DeviceProber.ctor, IDeckLink.AddRef, DeviceProber.queryAttributesInterface,
          DeviceProber.queryCanInput, DeviceProber.queryCanAutodetect,
          IDeckLink.QueryInterface, IDeckLink.implements, ha, hi, hf]
      | some b =>
        cases b <;>
          simp [DeviceProber.ctor, IDeckLink.AddRef, DeviceProber.queryAttributesInterface,
            DeviceProber.queryCanInput, DeviceProber.queryCanAutodetect,
            IDeckLink.QueryInterface, IDeckLink.implements, ha, hi, hf]

/-- C7: when the enumeration returns zero handles, `main` prints the error and
returns exit code 1; all that the run adds to the trace is the release of the
iterator and the error message, and no reference count changes. No prober was
constructed and the table was never printed: either would have left its first
action, `AddRef` on a handle or the table header, in the trace. -/
theorem no_devices_exit_code_one (env : Env) (w w1 : World)
    (h : (collectDeckLinkDevices env).run w = (Except.ok [], w1)) :
    (main env).run w =
        (Except.ok 1,
          { w with
            out := w.out ++ [Event.iteratorRelease,
              Event.cerr "exception cought: No DeckLink devices found"] }) ∧
      (∀ (d : IDeckLink) (w0 : World),
        Event.deckLinkAddRef d.addr ∈ ((DeviceProber.ctor d).run w0).2.out) ∧
      (∀ (ps : List DeviceProber) (iteration : Nat) (w0 : World),
        Event.tableHeader ∈ ((printStatusList ps iteration).run w0).2.out) ∧
      (∀ e ∈ [Event.iteratorRelease, Event.cerr "exception cought: No DeckLink devices found"],
        e ≠ Event.tableHeader ∧ ∀ a, e ≠ Event.deckLinkAddRef a) := by
  refine ⟨?_, ctor_marks_trace, printStatusList_header, ?_⟩
  · cases hit : env.iterator with
    | none => simp [collectDeckLinkDevices, hit] at h
    | some it =>
      by_cases hr : it.refCount - 1 = 0
      · simp [collectDeckLinkDevices, hit, assert, hr] at h
        obtain ⟨hd, hw⟩ := h
        simp [main, _main, collectDeckLinkDevices, hit, assert, hr, hd, freeDeckLinkDevices]
      · simp [collectDeckLinkDevices, hit, assert, hr] at h
  · intro e he
    simp only [List.mem_cons, List.mem_singleton, List.not_mem_nil, or_false] at he
    rcases he with rfl | rfl <;> simp

/-- C7 at `emptyRig`. -/
theorem no_devices_exit_code_one_witness :
    (main emptyRig).run freshWorld =
        (Except.ok 1,
          { freshWorld with
            out := freshWorld.out ++ [Event.iteratorRelease,
              Event.cerr "exception cought: No DeckLink devices found"] }) ∧
      (∀ (d : IDeckLink) (w0 : World),
        Event.deckLinkAddRef d.addr ∈ ((DeviceProber.ctor d).run w0).2.out) ∧
      (∀ (ps : List DeviceProber) (iteration : Nat) (w0 : World),
        Event.tableHeader ∈ ((printStatusList ps iteration).run w0).2.out) ∧
      (∀ e ∈ [Event.iteratorRelease, Event.cerr "exception cought: No DeckLink devices found"],
        e ≠ Event.tableHeader ∧ ∀ a, e ≠ Event.deckLinkAddRef a) :=
  no_devices_exit_code_one emptyRig freshWorld
    ((collectDeckLinkDevices emptyRig).run freshWorld).2 rfl


/-! ## Construction and cleanup -/

/-- A construction that completes: the prober it builds, and what it does to the
world. -/
theorem ctor_run (d : IDeckLink) (w w1 : World) (p : DeviceProber)
    (h : (DeviceProber.ctor d).run w = (Except.ok p, w1)) :
    p.m_deckLink = d ∧ p.m_refCount = 1 ∧
      (p.m_captureDelegate = none ∨ p.m_captureDelegate = some d.capture.Start) ∧
      w1 = { w with
        refs := fun a => if a = d.addr then w.refs a + p.held else w.refs a
        out := w.out ++ ctorTrace p } := by
  cases ha : d.attributes with
  | none =>
    simp [DeviceProber.ctor, IDeckLink.AddRef, DeviceProber.queryAttributesInterface,
      IDeckLink.QueryInterface, IDeckLink.implements, ha] at h
  | some a =>
    cases hi : d.input with
    | false =>
      simp [DeviceProber.ctor, IDeckLink.AddRef, DeviceProber.queryAttributesInterface,
        DeviceProber.queryCanInput, IDeckLink.QueryInterface, IDeckLink.implements, ha, hi] at h
    | true =>
      cases hf : a.supportsInputFormatDetection with
      | none =>
        simp [DeviceProber.ctor, IDeckLink.AddRef, DeviceProber.queryAttributesInterface,
          DeviceProber.queryCanInput, DeviceProber.queryCanAutodetect,
          IDeckLink.QueryInterface, IDeckLink.implements, ha, hi, hf] at h
      | some b =>
        cases b <;>
          simp [DeviceProber.ctor, IDeckLink.AddRef, DeviceProber.queryAttributesInterface,
            DeviceProber.queryCanInput, DeviceProber.queryCanAutodetect,
            IDeckLink.QueryInterface, IDeckLink.implements, ha, hi, hf] at h <;>
          (obtain ⟨rfl, rfl⟩ := h
           refine ⟨rfl, rfl, by simp, ?_⟩
           simp only [ctorTrace, DeviceProber.held, CaptureDelegate.Start, List.append_assoc,
             List.cons_append, List.nil_append, List.append_nil]
           congr 1
           funext x
           by_cases hx : x = d.addr
           · simp [hx]
             ring
           · simp [hx])

/-- The constructions of `createDeviceProbers`, when all complete. -/
theorem createDeviceProbers_run (ds : List IDeckLink) :
    ∀ (w w1 : World) (ps : List DeviceProber),
      (createDeviceProbers ds).run w = (Except.ok ps, w1) →
        ps.map (fun p => p.m_deckLink) = ds ∧
        (∀ p ∈ ps, p.m_refCount = 1 ∧
          (p.m_captureDelegate = none ∨ p.m_captureDelegate = some p.m_deckLink.capture.Start)) ∧
        w1 = { w with
          refs := fun a => w.refs a + heldAt a ps
          out := w.out ++ ps.flatMap ctorTrace } := by
  induction ds with
  | nil =>
    intro w w1 ps h
    simp only [createDeviceProbers, run_pure, Prod.mk.injEq, Except.ok.injEq] at h
    obtain ⟨rfl, rfl⟩ := h
    simp [heldAt]
  | cons d rest ih =>
    intro w w1 ps h
    simp only [createDeviceProbers, run_bind] at h
    rcases hc : (DeviceProber.ctor d).run w with ⟨r, wc⟩
    rw [hc] at h
    cases r with
    | error s => simp at h
    | ok p =>
      simp only at h
      rcases hr : (createDeviceProbers rest).run wc with ⟨rr, wr⟩
      rw [hr] at h
      cases rr with
      | error s => simp at h
      | ok tail =>
        simp only [run_pure, Prod.mk.injEq, Except.ok.injEq] at h
        obtain ⟨rfl, rfl⟩ := h
        obtain ⟨hd, hcount, hmon, rfl⟩ := ctor_run d w wc p hc
        obtain ⟨hds, hall, rfl⟩ := ih _ _ _ hr
        refine ⟨by simp [hd, hds], ?_, ?_⟩
        · intro q hq
          rcases List.mem_cons.mp hq with rfl | hq
          · exact ⟨hcount, by rw [hd]; exact hmon⟩
          · exact hall q hq
        · simp only [heldAt, List.flatMap_cons, List.append_assoc, hd]
          congr 1
          funext a
          by_cases ha : a = d.addr
          · simp [ha]
            ring
          · simp [ha, Ne.symm ha]

/-- The teardowns of `freeDeviceProbers`: every `Release` brings its count to 0
and every assertion holds. -/
theorem freeDeviceProbers_run (qs : List DeviceProber) :
    ∀ w : World,
      (∀ q ∈ qs, q.m_refCount = 1 ∧ ∀ m, q.m_captureDelegate = some m → m.refCount = 1) →
        (freeDeviceProbers qs).run w =
          (Except.ok (),
            { w with
              refs := fun a => w.refs a - heldAt a qs
              out := w.out ++ qs.flatMap teardownTrace }) := by
  induction qs with
  | nil =>
    intro w _
    simp [freeDeviceProbers, heldAt]
  | cons q rest ih =>
    intro w h
    obtain ⟨hq1, hq2⟩ := h q (by simp)
    have hrest : ∀ x ∈ rest, x.m_refCount = 1 ∧
        ∀ m, x.m_captureDelegate = some m → m.refCount = 1 :=
      fun x hx => h x (by simp [hx])
    simp only [freeDeviceProbers, run_bind, release_final q w hq1 hq2, assert, beq_self_eq_true,
      if_true, run_pure, ih _ hrest, heldAt, List.flatMap_cons, List.append_assoc]
    congr 2
    funext a
    by_cases ha : a = q.m_deckLink.addr
    · simp [ha]
      ring
    · simp [ha, Ne.symm ha]

/-- The releases of `freeDeckLinkDevices` on distinct handles that each have
one reference left: every assertion holds. -/
theorem freeDeckLinkDevices_run (ds : List IDeckLink) :
    ∀ w : World, (ds.map (fun d => d.addr)).Nodup → (∀ d ∈ ds, w.refs d.addr = 1) →
      (freeDeckLinkDevices ds).run w =
        (Except.ok (),
          { w with
            refs := fun a => if a ∈ ds.map (fun d => d.addr) then 0 else w.refs a
            out := w.out ++ ds.map (fun d => Event.deckLinkRelease d.addr) }) := by
  induction ds with
  | nil =>
    intro w _ _
    simp [freeDeckLinkDevices]
  | cons d rest ih =>
    intro w hnd h
    have hd1 : w.refs d.addr = 1 := h d (by simp)
    simp only [List.map_cons, List.nodup_cons] at hnd
    obtain ⟨hnotin, hnd2⟩ := hnd
    have hrest : ∀ x ∈ rest,
        ({ w with
            refs := fun a => if a = d.addr then w.refs a + -1 else w.refs a
            out := w.out ++ [Event.deckLinkRelease d.addr] } : World).refs x.addr = 1 := by
      intro x hx
      have hne : x.addr ≠ d.addr := by
        intro he
        exact hnotin (by rw [← he]; exact List.mem_map_of_mem _ hx)
      simp only [hne, if_false]
      exact h x (by simp [hx])
    simp only [freeDeckLinkDevices, IDeckLink.Release, run_bind, run_emit, run_adjust,
      run_refCountAt, assert, if_true, hd1]
    simp only [Int.reduceAdd, beq_self_eq_true, if_true, run_pure, run_bind]
    rw [ih _ hnd2 hrest]
    simp only [List.map_cons, List.mem_cons, List.append_assoc, List.singleton_append]
    congr 2
    funext a
    by_cases ha : a = d.addr
    · simp [ha, hd1]
    · simp [ha]

/-- Probers at exit that hold what their constructions took hold the same
references on every handle. -/
theorem heldAt_atExit (a : Nat) (probers atExit : List DeviceProber)
    (hbuilt : ∀ p ∈ probers,
      p.m_captureDelegate = none ∨ p.m_captureDelegate = some p.m_deckLink.capture.Start)
    (hexit : List.Forall₂ AtExit probers atExit) :
    heldAt a atExit = heldAt a probers := by
  induction hexit with
  | nil => rfl
  | @cons p q ps qs hpq _ ih =>
    obtain ⟨hd, -, hsome, hm⟩ := hpq
    have hheld : q.held = p.held := by
      rcases hbuilt p (by simp) with hp | hp
      · cases hq : q.m_captureDelegate with
        | none => simp [DeviceProber.held, hp, hq]
        | some m => simp [hp, hq] at hsome
      · cases hq : q.m_captureDelegate with
        | none => simp [hp, hq] at hsome
        | some m =>
          simp [DeviceProber.held, hp, hq, (hm m hq).2, CaptureDelegate.Start]
    simp only [heldAt, hd, hheld, ih (fun x hx => hbuilt x (by simp [hx]))]

/-- Probers at exit have count 1 and monitors with one outstanding reference. -/
theorem quiet_atExit (probers atExit : List DeviceProber)
    (hexit : List.Forall₂ AtExit probers atExit) :
    ∀ q ∈ atExit, q.m_refCount = 1 ∧ ∀ m, q.m_captureDelegate = some m → m.refCount = 1 := by
  induction hexit with
  | nil => simp
  | @cons p q ps qs hpq _ ih =>
    intro x hx
    rcases List.mem_cons.mp hx with rfl | hx
    · exact ⟨hpq.2.1, fun m hm => (hpq.2.2.2 m hm).1⟩
    · exact ih x hx

/-- The cleanup of `_main` on probers as the cleanup expects them. -/
theorem cleanup_run (devices : List IDeckLink) (w w1 w2 : World)
    (probers atExit : List DeviceProber)
    (hdistinct : (devices.map (fun d => d.addr)).Nodup)
    (hstart : ∀ d ∈ devices, w.refs d.addr = 1)
    (hcreate : (createDeviceProbers devices).run w = (Except.ok probers, w1))
    (hexit : List.Forall₂ AtExit probers atExit)
    (hrefs : w2.refs = w1.refs) :
    (freeDeviceProbers atExit >>= fun _ => freeDeckLinkDevices devices).run w2 =
      (Except.ok (),
        { w2 with
          refs := fun a => if a ∈ devices.map (fun d => d.addr) then 0 else w.refs a
          out := w2.out ++ atExit.flatMap teardownTrace ++
            devices.map (fun d => Event.deckLinkRelease d.addr) }) := by
  obtain ⟨hds, hbuilt, rfl⟩ := createDeviceProbers_run devices w w1 probers hcreate
  have hquiet := quiet_atExit probers atExit hexit
  rw [run_bind, freeDeviceProbers_run atExit w2 hquiet]
  simp only
  rw [freeDeckLinkDevices_run devices _ hdistinct]
  · simp only [List.append_assoc]
    congr 2
    funext a
    simp only [hrefs, heldAt_atExit a probers atExit (fun p hp => (hbuilt p hp).2) hexit]
    by_cases ha : a ∈ List.map (fun d => d.addr) devices
    · simp [ha]
    · simp [ha]
  · intro d hd
    simp only [hrefs, heldAt_atExit d.addr probers atExit (fun p hp => (hbuilt p hp).2) hexit]
    rw [add_sub_cancel_right]
    exact hstart d hd

/-! ## A whole run of `_main` -/

/-- With the flag set the loop exits at its check, whatever is scheduled. -/
theorem displayLoop_exit (ticks : List Tick) (ps : List DeviceProber) (n : Nat) (w : World)
    (h : w.g_do_exit = true) : (displayLoop ticks ps n).run w = (Except.ok ps, w) := by
  cases ticks <;> simp [displayLoop, load_g_do_exit, h]

/-- With the flag clear the loop goes through the next iteration. -/
theorem displayLoop_step (t : Tick) (ticks : List Tick) (ps : List DeviceProber) (n : Nat)
    (w : World) (h : w.g_do_exit = false) :
    (displayLoop (t :: ticks) ps n).run w =
      match (displayLoopBody t ps n).run w with
      | (Except.ok ps1, w1) => (displayLoop ticks ps1 ((n + 1) % 2 ^ 32)).run w1
      | (Except.error s, w1) => (Except.error s, w1) := by
  simp only [displayLoop, run_bind, load_g_do_exit, h, Bool.false_eq_true, if_false]
  rcases (displayLoopBody t ps n).run w with ⟨r, w1⟩
  cases r <;> rfl

/-- Signals other than SIGINT and SIGTERM leave the world as it is. -/
theorem deliver_quiet (signals : List Int) (w : World)
    (h : ∀ s ∈ signals, s ≠ SIGINT ∧ s ≠ SIGTERM) :
    (deliver signals).run w = (Except.ok (), w) := by
  rw [deliver_run]
  have : (signals.any fun s => s == SIGINT || s == SIGTERM) = false := by
    rw [List.any_eq_false]
    intro s hs
    obtain ⟨h1, h2⟩ := h s hs
    simp [h1, h2]
  simp [this]

theorem shown_refl (w : World) : Shown w w :=
  ⟨[], by simp, by simp⟩

theorem shown_trans {w w1 w2 : World} (h1 : Shown w w1) (h2 : Shown w1 w2) : Shown w w2 := by
  obtain ⟨e1, c1, d1⟩ := h1
  obtain ⟨e2, c2, d2⟩ := h2
  refine ⟨e1 ++ e2, by rw [c2, c1, List.append_assoc], ?_⟩
  intro e he
  rcases List.mem_append.mp he with he | he
  · exact d1 e he
  · exact d2 e he

theorem shown_emit (w : World) (e : Event) (h : e.ofDisplayLoop = true) :
    Shown w { w with out := w.out ++ [e] } :=
  ⟨[e], rfl, by
    intro x hx
    simp only [List.mem_singleton] at hx
    subst hx
    exact h⟩

/-- The rows of a table that is printed to the end are events of the display
loop. -/
theorem printRows_shown (ps : List DeviceProber) :
    ∀ (k : Nat) (w : World), (∀ p ∈ ps, p.m_deckLink.displayName ≠ none) →
      Shown w ((printRows ps k).run w).2 := by
  induction ps with
  | nil => intro k w _; exact shown_refl w
  | cons p rest ih =>
    intro k w h
    have hp := h p (by simp)
    have hrest : ∀ q ∈ rest, q.m_deckLink.displayName ≠ none :=
      fun q hq => h q (by simp [hq])
    cases hn : p.m_deckLink.displayName with
    | none => exact absurd hn hp
    | some name =>
      cases hs : p.GetSignalDetected
      · simp only [printRows, DeviceProber.GetDeviceName, hn, hs, run_bind, run_emit,
          Bool.not_false, if_true, run_pure]
        refine shown_trans ?_ (ih _ _ hrest)
        exact shown_trans (shown_emit w _ (by rfl)) (shown_emit _ _ (by rfl))
      · simp only [printRows, DeviceProber.GetDeviceName, hn, hs, run_bind, run_emit,
          Bool.not_true, run_pure]
        refine shown_trans ?_ (ih _ _ hrest)
        exact shown_emit _ _ (by rfl)

/-- A table that is printed to the end is made of events of the display loop. -/
theorem printStatusList_shown (ps : List DeviceProber) (iteration : Nat) (w : World)
    (h : ∀ p ∈ ps, p.m_deckLink.displayName ≠ none) :
    Shown w ((printStatusList ps iteration).run w).2 := by
  have key : ∀ wu : World, Shown w wu →
      Shown w ((do
        emit Event.tableHeader
        printRows ps 0
        emit Event.tableFooter
        emit (Event.scanning (iterationSign iteration)) : Prog Unit).run wu).2 := by
    intro wu h1
    simp only [run_bind, run_emit]
    rcases hr : (printRows ps 0).run { wu with out := wu.out ++ [Event.tableHeader] } with ⟨rr, wr⟩
    have h3 := printRows_shown ps 0 { wu with out := wu.out ++ [Event.tableHeader] } h
    rw [hr] at h3
    have h4 : Shown w wr := shown_trans (shown_trans h1 (shown_emit wu _ (by rfl))) h3
    cases rr with
    | error s => exact h4
    | ok u => exact shown_trans h4 (shown_trans (shown_emit wr _ (by rfl)) (shown_emit _ _ (by rfl)))
  by_cases hi : iteration > 0
  · simp only [printStatusList, hi, if_true]
    rw [run_bind]
    simp only [run_emit]
    exact key _ (shown_emit w _ (by rfl))
  · simp only [printStatusList, hi, if_false]
    rw [run_bind]
    simp only [run_pure]
    exact key _ (shown_refl w)

/-- One iteration of the display loop when every handle gives its name: what it
adds to the trace are events of the display loop, one of them the `sleep`. -/
theorem displayLoopBody_events (t : Tick) (ps : List DeviceProber) (iteration : Nat)
    (w : World) (h : ∀ p ∈ ps, p.m_deckLink.displayName ≠ none) :
    ∃ evs, (displayLoopBody t ps iteration).run w =
        (Except.ok (List.map (fun p => if p.GetSignalDetected then p else p.SelectNextConnection)
            (observeAll t.monitors ps)),
          { w with
            g_do_exit := w.g_do_exit || t.signals.any (fun s => s == SIGINT || s == SIGTERM)
            out := w.out ++ evs }) ∧
      evs.count (Event.sleep 1) = 1 ∧ ∀ e ∈ evs, e.ofDisplayLoop = true := by
  have hn := names_of_lifetime ps (observeAll t.monitors ps) (observeAll_lifetime _ _) h
  have hok := printStatusList_ok (observeAll t.monitors ps) iteration w hn
  obtain ⟨hr, hg, printed, hout, -, hsl⟩ :=
    printStatusList_printed (observeAll t.monitors ps) iteration w
  obtain ⟨shown, hout2, hshown⟩ := printStatusList_shown (observeAll t.monitors ps) iteration w hn
  rcases hrun : (printStatusList (observeAll t.monitors ps) iteration).run w with ⟨r, w1⟩
  rw [hrun] at hok hr hg hout hout2
  simp only at hok hr hg hout hout2
  subst hok
  have hsame : shown = printed := List.append_cancel_left (hout2.symm.trans hout)
  subst hsame
  refine ⟨shown ++ List.map (fun p => Event.selectNextConnection p.m_deckLink.addr)
      ((observeAll t.monitors ps).filter (fun p => !p.GetSignalDetected)) ++ [Event.sleep 1],
    ?_, ?_, ?_⟩
  · simp only [displayLoopBody, run_bind, hrun, selectConnections_run, run_emit, deliver_run,
      run_pure, hr, hg, hout, List.append_assoc]
  · have h0 : shown.count (Event.sleep 1) = 0 := List.count_eq_zero.mpr (hsl 1)
    have h1 : (List.map (fun p => Event.selectNextConnection p.m_deckLink.addr)
        ((observeAll t.monitors ps).filter (fun p => !p.GetSignalDetected))).count
          (Event.sleep 1) = 0 := by
      apply List.count_eq_zero.mpr
      simp
    simp only [List.count_append, h0, h1]
    simp
  · intro e he
    simp only [List.mem_append, List.mem_map, List.mem_singleton] at he
    rcases he with (he | ⟨p, -, rfl⟩) | rfl
    · exact hshown e he
    · rfl
    · rfl

/-- The iterations before the one in which SIGINT or SIGTERM arrives: the loop
goes through each of them, sleeping once in each. -/
theorem displayLoop_pre (pre : List Tick) :
    ∀ (rest : List Tick) (ps : List DeviceProber) (n : Nat) (w : World),
      w.g_do_exit = false →
      (∀ p ∈ ps, p.m_deckLink.displayName ≠ none) →
      (∀ u ∈ pre, ∀ s ∈ u.signals, s ≠ SIGINT ∧ s ≠ SIGTERM) →
      ∃ ps1 n1 evs, (displayLoop (pre ++ rest) ps n).run w =
          (displayLoop rest ps1 n1).run { w with out := w.out ++ evs } ∧
        evs.count (Event.sleep 1) = pre.length ∧ (∀ e ∈ evs, e.ofDisplayLoop = true) ∧
        ps1.map DeviceProber.lifetime = ps.map DeviceProber.lifetime := by
  induction pre with
  | nil =>
    intro rest ps n w _ _ _
    exact ⟨ps, n, [], by simp, rfl, by simp, rfl⟩
  | cons u us ih =>
    intro rest ps n w hf hnames hquiet
    obtain ⟨evs, hbody, hone, hshown⟩ := displayLoopBody_events u ps n w hnames
    have hany : (u.signals.any fun s => s == SIGINT || s == SIGTERM) = false := by
      rw [List.any_eq_false]
      intro s hs
      obtain ⟨h1, h2⟩ := hquiet u (by simp) s hs
      simp [h1, h2]
    have hlife : (List.map (fun p => if p.GetSignalDetected then p else p.SelectNextConnection)
        (observeAll u.monitors ps)).map DeviceProber.lifetime = ps.map DeviceProber.lifetime := by
      rw [advance_lifetime, observeAll_lifetime]
    rw [hany, Bool.or_false] at hbody
    obtain ⟨ps1, n1, evs1, hrun, hcount, hshown1, hl⟩ :=
      ih rest _ ((n + 1) % 2 ^ 32) { w with out := w.out ++ evs } hf
        (names_of_lifetime ps _ hlife hnames)
        (fun x hx => hquiet x (by simp [hx]))
    refine ⟨ps1, n1, evs ++ evs1, ?_, ?_, ?_, hl.trans hlife⟩
    · rw [List.cons_append, displayLoop_step _ _ _ _ _ hf, hbody]
      simp only
      rw [hrun]
      simp only [List.append_assoc]
    · simp only [List.count_append, hone, hcount, List.length_cons]
      omega
    · intro e he
      rcases List.mem_append.mp he with he | he
      · exact hshown e he
      · exact hshown1 e he

/-- The loop when SIGINT or SIGTERM arrives in the iteration after `pre`: that
iteration is completed, the loop exits at the check that follows, and what is
scheduled after it is never reached. -/
theorem displayLoop_signal (pre post : List Tick) (t : Tick) (ps : List DeviceProber) (n : Nat)
    (w : World) (hf : w.g_do_exit = false)
    (hnames : ∀ p ∈ ps, p.m_deckLink.displayName ≠ none)
    (hpre : ∀ u ∈ pre, ∀ s ∈ u.signals, s ≠ SIGINT ∧ s ≠ SIGTERM)
    (ht : ∃ s ∈ t.signals, s = SIGINT ∨ s = SIGTERM) :
    ∃ ps2 evs, (displayLoop (pre ++ t :: post) ps n).run w =
        (Except.ok ps2, { w with g_do_exit := true, out := w.out ++ evs }) ∧
      evs.count (Event.sleep 1) = pre.length + 1 ∧ (∀ e ∈ evs, e.ofDisplayLoop = true) ∧
      ps2.map DeviceProber.lifetime = ps.map DeviceProber.lifetime := by
  obtain ⟨ps1, n1, evs, hrun, hcount, hshown, hl⟩ :=
    displayLoop_pre pre (t :: post) ps n w hf hnames hpre
  have hnames1 := names_of_lifetime ps ps1 hl hnames
  obtain ⟨evs1, hbody, hone, hshown1⟩ :=
    displayLoopBody_events t ps1 n1 { w with out := w.out ++ evs } hnames1
  have hany : (t.signals.any fun s => s == SIGINT || s == SIGTERM) = true := by
    rw [List.any_eq_true]
    obtain ⟨s, hs, h12⟩ := ht
    refine ⟨s, hs, ?_⟩
    rcases h12 with rfl | rfl <;> simp
  have hlife : (List.map (fun p => if p.GetSignalDetected then p else p.SelectNextConnection)
      (observeAll t.monitors ps1)).map DeviceProber.lifetime = ps1.map DeviceProber.lifetime := by
    rw [advance_lifetime, observeAll_lifetime]
  rw [hany, Bool.or_true] at hbody
  refine ⟨_, evs ++ evs1, ?_, ?_, ?_, hlife.trans hl⟩
  · rw [hrun, displayLoop_step _ _ _ _ _
      (show ({ w with out := w.out ++ evs } : World).g_do_exit = false from hf), hbody]
    simp only
    rw [displayLoop_exit _ _ _ _ rfl]
    simp only [List.append_assoc]
  · simp only [List.count_append, hone, hcount]
  · intro e he
    rcases List.mem_append.mp he with he | he
    · exact hshown e he
    · exact hshown1 e he

/-- A handle on which the construction of a prober completes. -/
theorem ctor_ok (d : IDeckLink) (w : World) (hi : d.input = true)
    (ha : ∃ a b, d.attributes = some a ∧ a.supportsInputFormatDetection = some b) :
    ∃ p w1, (DeviceProber.ctor d).run w = (Except.ok p, w1) := by
  obtain ⟨a, b, ha, hb⟩ := ha
  cases b <;>
    simp [DeviceProber.ctor, IDeckLink.AddRef, DeviceProber.queryAttributesInterface,
      DeviceProber.queryCanInput, DeviceProber.queryCanAutodetect,
      IDeckLink.QueryInterface, IDeckLink.implements, ha, hi, hb]

/-- The constructions of `createDeviceProbers` complete on such handles. -/
theorem createDeviceProbers_ok (ds : List IDeckLink) :
    ∀ w : World,
      (∀ d ∈ ds, d.input = true ∧
        ∃ a b, d.attributes = some a ∧ a.supportsInputFormatDetection = some b) →
      ∃ ps w1, (createDeviceProbers ds).run w = (Except.ok ps, w1) := by
  induction ds with
  | nil => intro w _; exact ⟨[], w, rfl⟩
  | cons d rest ih =>
    intro w h
    obtain ⟨p, wc, hc⟩ := ctor_ok d w (h d (by simp)).1 (h d (by simp)).2
    obtain ⟨ps, w1, hr⟩ := ih wc (fun x hx => h x (by simp [hx]))
    exact ⟨p :: ps, w1, by simp only [createDeviceProbers, run_bind, hc, hr, run_pure]⟩

/-- Probers with the lifetimes of the probers of the construction, on handles
whose monitors start with one outstanding reference, are those probers as the
cleanup expects them. -/
theorem atExit_of_lifetime (ps : List DeviceProber) :
    ∀ qs : List DeviceProber,
      qs.map DeviceProber.lifetime = ps.map DeviceProber.lifetime →
      (∀ p ∈ ps, p.m_refCount = 1 ∧
        (p.m_captureDelegate = none ∨ p.m_captureDelegate = some p.m_deckLink.capture.Start)) →
      (∀ p ∈ ps, p.m_deckLink.capture.refCount = 1) →
      List.Forall₂ AtExit ps qs := by
  induction ps with
  | nil =>
    intro qs h _ _
    cases qs with
    | nil => exact List.Forall₂.nil
    | cons q rest => simp at h
  | cons p tail ih =>
    intro qs h hb hc
    cases qs with
    | nil => simp at h
    | cons q rest =>
      simp only [List.map_cons, List.cons.injEq] at h
      obtain ⟨hpq, hrest⟩ := h
      refine List.Forall₂.cons ?_ (ih rest hrest (fun x hx => hb x (by simp [hx]))
        (fun x hx => hc x (by simp [hx])))
      simp only [DeviceProber.lifetime, Prod.mk.injEq] at hpq
      obtain ⟨h1, h2, h3⟩ := hpq
      obtain ⟨hp1, hpm⟩ := hb p (by simp)
      have hcap := hc p (by simp)
      refine ⟨h2, h1.trans hp1, ?_, ?_⟩
      · have := congrArg Option.isSome h3
        simpa using this
      · intro m hm
        rcases hpm with hp | hp
        · simp [hp, hm] at h3
        · simp only [hp, hm, Option.map_some', Option.some.injEq, Prod.mk.injEq,
            CaptureDelegate.Start] at h3
          exact ⟨h3.1.trans hcap, h3.2⟩

/-- No trace of a construction holds a `sleep`. -/
theorem count_sleep_ctorTrace (ps : List DeviceProber) :
    (ps.flatMap ctorTrace).count (Event.sleep 1) = 0 := by
  apply List.count_eq_zero.mpr
  simp only [List.mem_flatMap, not_exists, not_and]
  intro p _
  cases hm : p.m_captureDelegate <;> simp [ctorTrace, hm]

/-- No trace of a teardown holds a `sleep`. -/
theorem count_sleep_teardownTrace (ps : List DeviceProber) :
    (ps.flatMap teardownTrace).count (Event.sleep 1) = 0 := by
  apply List.count_eq_zero.mpr
  simp only [List.mem_flatMap, not_exists, not_and]
  intro p _
  cases hm : p.m_captureDelegate <;> simp [teardownTrace, hm]

/-- A run of `_main` on a working rig in which SIGINT or SIGTERM arrives in the
iteration after `pre`: it returns, and its trace is the enumeration, the
constructions, the registration of the handler, the iterations of the loop, and
the cleanup. -/
theorem main_run_signal (env : Env) (w : World) (it : IDeckLinkIterator)
    (pre post : List Tick) (t : Tick)
    (hiter : env.iterator = some it) (hitref : it.refCount = 1) (hsome : it.devices ≠ [])
    (hdistinct : (it.devices.map (fun d => d.addr)).Nodup)
    (hstart : ∀ d ∈ it.devices, w.refs d.addr = 1)
    (hdev : ∀ d ∈ it.devices, d.input = true ∧ d.displayName ≠ none ∧
      d.capture.refCount = 1 ∧
      ∃ a b, d.attributes = some a ∧ a.supportsInputFormatDetection = some b)
    (hhttp : env.httpServer.refCount = 1)
    (hflag : w.g_do_exit = false)
    (hearly : ∀ s ∈ env.early, s ≠ SIGINT ∧ s ≠ SIGTERM)
    (hticks : env.ticks = pre ++ t :: post)
    (hpre : ∀ u ∈ pre, ∀ s ∈ u.signals, s ≠ SIGINT ∧ s ≠ SIGTERM)
    (ht : ∃ s ∈ t.signals, s = SIGINT ∨ s = SIGTERM) :
    ∃ ps ps2 loop wf, (_main env).run w = (Except.ok (), wf) ∧ wf.g_do_exit = true ∧
      wf.refs = (fun a => if a ∈ it.devices.map (fun d => d.addr) then 0 else w.refs a) ∧
      wf.out = w.out ++ [Event.iteratorRelease] ++ ps.flatMap ctorTrace ++
        [Event.newHttpServer, Event.signal SIGINT, Event.signal SIGTERM, Event.signal SIGHUP] ++
        loop ++ [Event.cout "Bye.", Event.httpServerRelease] ++ ps2.flatMap teardownTrace ++
        it.devices.map (fun d => Event.deckLinkRelease d.addr) ∧
      loop.count (Event.sleep 1) = pre.length + 1 ∧ (∀ e ∈ loop, e.ofDisplayLoop = true) ∧
      ps.map (fun p => p.m_deckLink) = it.devices ∧ List.Forall₂ AtExit ps ps2 := by
  have hcollect : (collectDeckLinkDevices env).run w =
      (Except.ok it.devices, { w with out := w.out ++ [Event.iteratorRelease] }) := by
    simp [collectDeckLinkDevices, hiter, assert, hitref]
  have hlen : (it.devices.length == 0) = false := by
    cases hd : it.devices with
    | nil => exact absurd hd hsome
    | cons d rest => simp
  obtain ⟨ps, w1, hcreate⟩ := createDeviceProbers_ok it.devices
    { w with out := w.out ++ [Event.iteratorRelease] } (fun d hd => ⟨(hdev d hd).1, (hdev d hd).2.2.2⟩)
  obtain ⟨hds, hbuilt, hw1⟩ := createDeviceProbers_run _ _ _ _ hcreate
  have hmem : ∀ p ∈ ps, p.m_deckLink ∈ it.devices := by
    intro p hp
    rw [← hds]
    exact List.mem_map_of_mem (fun p => p.m_deckLink) hp
  have hnames : ∀ p ∈ ps, p.m_deckLink.displayName ≠ none :=
    fun p hp => (hdev _ (hmem p hp)).2.1
  have hf1 : w1.g_do_exit = false := by rw [hw1]; exact hflag
  obtain ⟨ps2, loop, hloop, hcount, hshown, hl⟩ :=
    displayLoop_signal pre post t ps 0
      { refs := w1.refs, g_do_exit := w1.g_do_exit,
        out := w1.out ++ [Event.newHttpServer] ++ [Event.signal SIGINT] ++
          [Event.signal SIGTERM] ++ [Event.signal SIGHUP] }
      hf1 hnames hpre ht
  have hexit : List.Forall₂ AtExit ps ps2 :=
    atExit_of_lifetime ps ps2 hl hbuilt (fun p hp => (hdev _ (hmem p hp)).2.2.1)
  have hclean := cleanup_run it.devices { w with out := w.out ++ [Event.iteratorRelease] } w1
    { refs := w1.refs, g_do_exit := true,
      out := w1.out ++ [Event.newHttpServer] ++ [Event.signal SIGINT] ++
          [Event.signal SIGTERM] ++ [Event.signal SIGHUP] ++ loop ++
          [Event.cout "Bye."] ++ [Event.httpServerRelease] }
    ps ps2 hdistinct hstart hcreate hexit rfl
  obtain ⟨wf, hwf, hg, hrefs, hout⟩ : ∃ wf,
      (freeDeviceProbers ps2 >>= fun _ => freeDeckLinkDevices it.devices).run
        { refs := w1.refs, g_do_exit := true,
          out := w1.out ++ [Event.newHttpServer] ++ [Event.signal SIGINT] ++
            [Event.signal SIGTERM] ++ [Event.signal SIGHUP] ++ loop ++
            [Event.cout "Bye."] ++ [Event.httpServerRelease] } =
        (Except.ok (), wf) ∧ wf.g_do_exit = true ∧
      wf.refs = (fun a => if a ∈ it.devices.map (fun d => d.addr) then 0 else w.refs a) ∧
      wf.out = w1.out ++ [Event.newHttpServer] ++ [Event.signal SIGINT] ++
            [Event.signal SIGTERM] ++ [Event.signal SIGHUP] ++ loop ++
            [Event.cout "Bye."] ++ [Event.httpServerRelease] ++
        ps2.flatMap teardownTrace ++ List.map (fun d => Event.deckLinkRelease d.addr) it.devices :=
    ⟨_, hclean, rfl, rfl, rfl⟩
  refine ⟨ps, ps2, loop, wf, ?_, hg, hrefs, ?_, hcount, hshown, hds, hexit⟩
  · simp only [_main, run_bind, hcollect, hlen, Bool.false_eq_true, if_false, hcreate, run_emit,
      deliver_quiet _ _ hearly, hticks, hloop, HttpServer.Release, run_pure, hhttp, assert]
    simp only [sub_self, beq_self_eq_true, if_true, run_pure]
    rw [run_bind] at hwf
    exact hwf
  · rw [hout, hw1]
    simp only [List.append_assoc, List.cons_append, List.nil_append]

/-! ## Shutdown on a signal (C2) -/

/-- C2 as stated fails for the hangup signal: the handler leaves the flag false
on SIGHUP, and on `hangupRig`, where SIGHUP arrives in the first iteration, the
loop goes through the second iteration as well and is still running at the end
of the observation, while on `terminateRig` the process has returned 0 after
one iteration. -/
theorem sighup_counterexample :
    ((sigfunc SIGHUP).run freshWorld).2.g_do_exit = false ∧
      ((main hangupRig).run freshWorld).1 = Except.error Stop.running ∧
      ((main hangupRig).run freshWorld).2.out.count (Event.sleep 1) = 2 ∧
      ((main terminateRig).run freshWorld).1 = Except.ok 0 ∧
      ((main terminateRig).run freshWorld).2.out.count (Event.sleep 1) = 1 := by
  refine ⟨rfl, rfl, ?_, rfl, ?_⟩
  · decide
  · decide

/-- C2, amended: SIGINT and SIGTERM, delivered to the handler, set the shutdown
flag, and SIGHUP, caught by the same handler, leaves it as it is. With the flag
set the loop exits at its check without a further iteration. So on a rig on
which startup succeeds (an iterator with one reference, at least one handle,
distinct handles with one reference each, each with attributes, flag, input
interface and name) and the assertions of the cleanup hold (monitors and
HttpServer with one outstanding reference), when SIGINT or SIGTERM first
arrives during the iteration that follows the iterations `pre`, `main` returns
exit code 0 after exactly that many iterations and one more, whatever is
scheduled after. -/
theorem shutdown_on_signal (env : Env) (w : World) (it : IDeckLinkIterator)
    (pre post : List Tick) (t : Tick) (signum : Int)
    (hsig : signum = SIGINT ∨ signum = SIGTERM)
    (hiter : env.iterator = some it) (hitref : it.refCount = 1) (hsome : it.devices ≠ [])
    (hdistinct : (it.devices.map (fun d => d.addr)).Nodup)
    (hstart : ∀ d ∈ it.devices, w.refs d.addr = 1)
    (hdev : ∀ d ∈ it.devices, d.input = true ∧ d.displayName ≠ none ∧
      d.capture.refCount = 1 ∧
      ∃ a b, d.attributes = some a ∧ a.supportsInputFormatDetection = some b)
    (hhttp : env.httpServer.refCount = 1)
    (hflag : w.g_do_exit = false)
    (hearly : ∀ s ∈ env.early, s ≠ SIGINT ∧ s ≠ SIGTERM)
    (hticks : env.ticks = pre ++ t :: post)
    (hpre : ∀ u ∈ pre, ∀ s ∈ u.signals, s ≠ SIGINT ∧ s ≠ SIGTERM)
    (ht : signum ∈ t.signals) :
    (∀ w0 : World, (sigfunc signum).run w0 = (Except.ok (), { w0 with g_do_exit := true })) ∧
      (∀ w0 : World, (sigfunc SIGHUP).run w0 = (Except.ok (), w0)) ∧
      (∀ (ticks : List Tick) (ps : List DeviceProber) (n : Nat) (w0 : World),
        w0.g_do_exit = true → (displayLoop ticks ps n).run w0 = (Except.ok ps, w0)) ∧
      ((main env).run w).1 = Except.ok 0 ∧
      ((main env).run w).2.g_do_exit = true ∧
      ((main env).run w).2.out.count (Event.sleep 1) =
        w.out.count (Event.sleep 1) + pre.length + 1 := by
  obtain ⟨ps, ps2, loop, wf, hrun, hg, -, hout, hcount, -, -, -⟩ :=
    main_run_signal env w it pre post t hiter hitref hsome
      hdistinct hstart hdev hhttp hflag hearly hticks hpre ⟨signum, ht, hsig⟩
  have hsleeps : wf.out.count (Event.sleep 1) = w.out.count (Event.sleep 1) + pre.length + 1 := by
    have h3 : (List.map (fun d => Event.deckLinkRelease d.addr) it.devices).count
        (Event.sleep 1) = 0 := by
      apply List.count_eq_zero.mpr
      simp
    rw [hout]
    simp only [List.count_append, count_sleep_ctorTrace, count_sleep_teardownTrace,
      hcount, h3]
    simp
    omega
  refine ⟨?_, ?_, displayLoop_exit, ?_, ?_, ?_⟩
  · intro w0
    rcases hsig with rfl | rfl <;> rfl
  · intro w0
    rfl
  · simp [main, hrun]
  · simp [main, hrun, hg]
  · simp [main, hrun, hsleeps]

/-- The amended C2 at `studioRig`: SIGTERM arrives in the third iteration, after
a SIGHUP in the second. -/
theorem shutdown_on_signal_witness :
    (∀ w0 : World, (sigfunc SIGTERM).run w0 = (Except.ok (), { w0 with g_do_exit := true })) ∧
      (∀ w0 : World, (sigfunc SIGHUP).run w0 = (Except.ok (), w0)) ∧
      (∀ (ticks : List Tick) (ps : List DeviceProber) (n : Nat) (w0 : World),
        w0.g_do_exit = true → (displayLoop ticks ps n).run w0 = (Except.ok ps, w0)) ∧
      ((main studioRig).run freshWorld).1 = Except.ok 0 ∧
      ((main studioRig).run freshWorld).2.g_do_exit = true ∧
      ((main studioRig).run freshWorld).2.out.count (Event.sleep 1) =
        freshWorld.out.count (Event.sleep 1) +
          [({ monitors := [], signals := [] } : Tick),
           { monitors := [some { signalDetected := true, detectedMode := "1080i59.94",
                                 pixelFormat := 7 }],
             signals := [SIGHUP] }].length + 1 :=
  shutdown_on_signal studioRig freshWorld { devices := [captureCard, legacyCard], refCount := 1 }
    [{ monitors := [], signals := [] },
     { monitors := [some { signalDetected := true, detectedMode := "1080i59.94",
                           pixelFormat := 7 }],
       signals := [SIGHUP] }]
    [{ monitors := [], signals := [] }]
    { monitors := [], signals := [SIGTERM] }
    SIGTERM (Or.inr rfl) rfl rfl (by decide) (by decide) (fun _ _ => rfl)
    (by
      intro d hd
      simp only [List.mem_cons, List.mem_singleton, List.not_mem_nil, or_false] at hd
      rcases hd with rfl | rfl
      · exact ⟨rfl, by decide, rfl, _, _, rfl, rfl⟩
      · exact ⟨rfl, by decide, rfl, _, _, rfl, rfl⟩)
    rfl rfl (by intro s hs; cases hs) rfl (by decide) (by decide)

/-! ## Cleanup at exit (C10) -/

end DecklinkDebugger
